import Mathlib

/-!
Verification development for the mixview entity-resolution and
relationship-computation engine (`backend/normalization.py` and
`backend/aggregator.py`).

Strings are modelled as `List Char` (`Str`), Python floats as exact
rationals (`ℚ`), Python `None`/missing values as `Option`, and Python
truthiness (`if not x`) explicitly (`""`, `0` and `None` are falsy).
Database sessions are modelled as a committed store plus a pending store;
`commit` either publishes the pending store or fails according to an
environment schedule, mirroring a failing `Session.commit()`.
-/

set_option maxRecDepth 100000

namespace Mixview

abbrev Str := List Char

/-- Whitespace characters recognised by Python `str.strip` / `\s` (ASCII part). -/
def isWsC (c : Char) : Bool :=
  c == ' ' || c == '\t' || c == '\n' || c == '\x0d' || c == '\x0b' || c == '\x0c'

/-- Python `\w` on ASCII text: letters, digits, underscore. -/
def isWordC (c : Char) : Bool := c.isAlphanum || c == '_'

/-- Python `str.lower` restricted to ASCII letters (non-ASCII letters are
handled by the fold table below, which covers both cases). -/
def lowerC (c : Char) : Char :=
  if 65 ≤ c.toNat ∧ c.toNat ≤ 90 then Char.ofNat (c.toNat + 32) else c

def lowerStr (s : Str) : Str := s.map lowerC

/-- Python `str.strip` (leading part). -/
def trimLeft (s : Str) : Str := s.dropWhile (fun c => isWsC c)

/-- Python `str.strip`. -/
def trim (s : Str) : Str := (trimLeft ((trimLeft s).reverse)).reverse

/-- NFKD decompositions (first character, ASCII) for the Latin letters the
domain uses; `unicodedata.normalize('NFKD', ·)` followed by
`encode('ASCII','ignore')` keeps exactly the ASCII part of the
decomposition, and drops characters with no ASCII decomposition. -/
def foldTable : List (Char × Char) :=
  [('á', 'a'), ('à', 'a'), ('â', 'a'), ('ä', 'a'), ('ã', 'a'), ('å', 'a'),
   ('é', 'e'), ('è', 'e'), ('ê', 'e'), ('ë', 'e'),
   ('í', 'i'), ('ì', 'i'), ('î', 'i'), ('ï', 'i'),
   ('ó', 'o'), ('ò', 'o'), ('ô', 'o'), ('ö', 'o'), ('õ', 'o'),
   ('ú', 'u'), ('ù', 'u'), ('û', 'u'), ('ü', 'u'),
   ('ý', 'y'), ('ÿ', 'y'), ('ñ', 'n'), ('ç', 'c'),
   ('Á', 'a'), ('À', 'a'), ('Â', 'a'), ('Ä', 'a'), ('Ã', 'a'), ('Å', 'a'),
   ('É', 'e'), ('È', 'e'), ('Ê', 'e'), ('Ë', 'e'),
   ('Í', 'i'), ('Ì', 'i'), ('Î', 'i'), ('Ï', 'i'),
   ('Ó', 'o'), ('Ò', 'o'), ('Ô', 'o'), ('Ö', 'o'), ('Õ', 'o'),
   ('Ú', 'u'), ('Ù', 'u'), ('Û', 'u'), ('Ü', 'u'),
   ('Ý', 'y'), ('Ñ', 'n'), ('Ç', 'c')]

/-- One character of `NFKD`-decompose + ASCII-ignore: ASCII characters pass
through, table entries decompose to their base letter, every other
non-ASCII character is dropped. -/
def asciiFoldChar (c : Char) : Str :=
  if c.toNat < 128 then [c]
  else
    match foldTable.find? (fun p => p.1 == c) with
    | some p => [p.2]
    | none => []

def asciiFoldStr (s : Str) : Str := (s.map asciiFoldChar).flatten

/-- `MusicNameNormalizer.STRIP_SUFFIXES`. -/
def stripSuffixList : List Str :=
  ["(remastered)", "(remaster)", "[remastered]", "[remaster]",
   "(deluxe edition)", "(deluxe)", "[deluxe edition]", "[deluxe]",
   "(expanded edition)", "(expanded)", "[expanded edition]", "[expanded]",
   "(bonus track version)", "(bonus tracks)", "[bonus tracks]",
   "(anniversary edition)", "[anniversary edition]",
   "(special edition)", "[special edition]",
   "- remastered", "- remaster", "- deluxe", "- expanded",
   "(original motion picture soundtrack)", "(original soundtrack)",
   "(ost)", "[ost]"].map String.toList

/-- One iteration of the suffix-stripping loop:
`if normalized.endswith(suffix): normalized = normalized[:-len(suffix)].strip()`. -/
def stripOneSuffix (s : Str) (suf : Str) : Str :=
  if suf.isSuffixOf s then trim (s.take (s.length - suf.length)) else s

def stripSuffixesAll (s : Str) : Str := stripSuffixList.foldl stripOneSuffix s

/-- Drop characters up to and including the first occurrence of `cl`. -/
def dropThroughClose (cl : Char) : Str → Option Str
  | [] => none
  | c :: rest => if c = cl then some rest else dropThroughClose cl rest

/-- `re.sub(r'\(...\)', '', s)`-style removal of shortest delimited groups
(an opening delimiter with no matching closer stays, as in the regex). -/
def removeDelimsFuel (o cl : Char) : Nat → Str → Str
  | 0, s => s
  | _ + 1, [] => []
  | fuel + 1, c :: rest =>
    if c = o then
      match dropThroughClose cl rest with
      | some rest' => removeDelimsFuel o cl fuel rest'
      | none => c :: rest
    else c :: removeDelimsFuel o cl fuel rest

def removeDelims (o cl : Char) (s : Str) : Str := removeDelimsFuel o cl s.length s

/-- One prefix-removal pass (`IGNORE_PREFIXES`, first match only, `break`). -/
def stripArticle (s : Str) : Str :=
  if ("the ".toList).isPrefixOf s then s.drop 4
  else if ("a ".toList).isPrefixOf s then s.drop 2
  else if ("an ".toList).isPrefixOf s then s.drop 3
  else s

/-- `re.sub(r'\s+', ' ', s)`: every maximal whitespace run becomes one space. -/
def squash : Str → Str
  | [] => []
  | c :: rest =>
    if isWsC c then
      match squash rest with
      | [] => [' ']
      | d :: ds => if isWsC d then d :: ds else ' ' :: d :: ds
    else c :: squash rest

/-- `MusicNameNormalizer.normalize(name, strict)`. -/
def normalize (name : Str) (strict : Bool) : Str :=
  if name = [] then []
  else
    let s1 := trim (lowerStr name)
    let s2 := asciiFoldStr s1
    let s3 := stripSuffixesAll s2
    let s4 := if strict then removeDelims '[' ']' (removeDelims '(' ')' s3) else s3
    let s5 := stripArticle s4
    let s6 := s5.filter (fun c => isWordC c || isWsC c)
    trim (squash s6)

example : normalize ("The Beatles".toList) false = "beatles".toList := by decide
example : normalize ("Björk".toList) false = "bjork".toList := by decide
example : normalize ("Sgt. Pepper's Lonely Hearts Club Band".toList) false
    = "sgt peppers lonely hearts club band".toList := by decide
example : normalize ("Come Together (Remastered)".toList) true
    = "come together".toList := by decide
example : normalize ("the the beatles".toList) false = "the beatles".toList := by decide
example : normalize ("the beatles".toList) false = "beatles".toList := by decide

/-!
`difflib.SequenceMatcher` (junk `None`; `autojunk` only acts when the
second sequence has at least 200 elements, which never happens for the
names compared here, so no element is junked).  `find_longest_match` is the
dynamic program over `b2j`; with no junk the final while-loop extensions of
the CPython source cannot grow the best block (the DP already found every
maximal diagonal run), so they are omitted.  `ratio` is
`2*M/T` over the total matched size `M` of `get_matching_blocks`.
-/

/-- Ascending positions of `c` in `b` (`b2j[c]`). -/
def positionsOf (b : Str) (c : Char) : List Nat :=
  (List.range b.length).filter (fun j => b.getD j ' ' == c)

def lookupJ (m : List (Nat × Nat)) (j : Nat) : Nat :=
  match m.find? (fun p => p.1 == j) with
  | some p => p.2
  | none => 0

/-- State of the `find_longest_match` scan: `newj2len` so far for the current
row, and the best `(i, j, size)` found so far. -/
def flmRow (b : Str) (j2len : List (Nat × Nat)) (i : Nat) (c : Char)
    (best : Nat × Nat × Nat) : List (Nat × Nat) × (Nat × Nat × Nat) :=
  (positionsOf b c).foldl
    (fun acc j =>
      let k := if j = 0 then 1 else lookupJ j2len (j - 1) + 1
      let best := acc.2
      ((j, k) :: acc.1,
       if best.2.2 < k then (i + 1 - k, j + 1 - k, k) else best))
    ([], best)

/-- `SequenceMatcher.find_longest_match` over the whole of `a` and `b`:
returns `(i, j, size)`, ties resolved by lowest `i` then lowest `j`. -/
def findLongestMatch (a b : Str) : Nat × Nat × Nat :=
  (a.foldl
    (fun (acc : Nat × List (Nat × Nat) × (Nat × Nat × Nat)) c =>
      let (i, j2len, best) := acc
      let (row, best') := flmRow b j2len i c best
      (i + 1, row, best'))
    (0, [], (0, 0, 0))).2.2

/-- Total size of the matching blocks of `get_matching_blocks`
(recursively: best block, then left and right remainders). -/
def matchTotalFuel : Nat → Str → Str → Nat
  | 0, _, _ => 0
  | fuel + 1, a, b =>
    let m := findLongestMatch a b
    let i := m.1
    let j := m.2.1
    let k := m.2.2
    if k = 0 then 0
    else
      matchTotalFuel fuel (a.take i) (b.take j) + k +
        matchTotalFuel fuel (a.drop (i + k)) (b.drop (j + k))

def matchTotal (a b : Str) : Nat := matchTotalFuel (a.length + 1) a b

/-- Rational arithmetic routed through `mkRat` (the `Rat` field operations
are `irreducible`, which blocks kernel evaluation; these compute the same
values from the canonical numerator and denominator). -/
def qAdd (a b : ℚ) : ℚ := mkRat (a.num * b.den + b.num * a.den) (a.den * b.den)

def qMul (a b : ℚ) : ℚ := mkRat (a.num * b.num) (a.den * b.den)

/-- `a / b` for `0 < b`, the only case the engine divides in. -/
def qDiv (a b : ℚ) : ℚ := mkRat (a.num * b.den) (a.den * b.num.toNat)

def qSub (a b : ℚ) : ℚ := qAdd a (mkRat (-b.num) b.den)

def qAbs (a : ℚ) : ℚ := mkRat (a.num.natAbs : Int) a.den

/-- `SequenceMatcher(None, a, b).ratio()` as an exact rational. -/
def seqRatioScore (a b : Str) : ℚ :=
  if a.length + b.length = 0 then 1
  else mkRat (2 * (matchTotal a b : Int)) (a.length + b.length)

/-- `MusicNameNormalizer.get_similarity_score(name1, name2, strict)`. -/
def get_similarity_score (name1 name2 : Str) (strict : Bool) : ℚ :=
  if name1 = [] ∨ name2 = [] then 0
  else if lowerStr name1 = lowerStr name2 then 1
  else
    let norm1 := normalize name1 strict
    let norm2 := normalize name2 strict
    if norm1 = norm2 then 1
    else if norm1 = [] ∨ norm2 = [] then 0
    else seqRatioScore norm1 norm2

/-- `MusicNameNormalizer.are_similar(name1, name2, threshold, strict)`. -/
def are_similar (name1 name2 : Str) (threshold : ℚ) (strict : Bool) : Bool :=
  if name1 = [] ∨ name2 = [] then false
  else if lowerStr name1 = lowerStr name2 then true
  else
    let norm1 := normalize name1 strict
    let norm2 := normalize name2 strict
    if norm1 = norm2 then true
    else if norm1 = [] ∨ norm2 = [] then false
    else threshold ≤ seqRatioScore norm1 norm2

/-- `VERSION_INDICATORS`. -/
def versionIndicators : List Str :=
  ["remaster", "remastered", "remix", "remixed", "deluxe", "expanded",
   "edition", "version", "anniversary", "special", "bonus", "extended"].map
    String.toList

/-- Python `needle in hay` on strings. -/
def strContains (hay needle : Str) : Bool :=
  (List.range (hay.length + 1)).any (fun i => needle.isPrefixOf (hay.drop i))

def containsIndicator (s : Str) : Bool :=
  versionIndicators.any (fun w => strContains (lowerStr s) w)

/-- Match of `\s*\(​[^)]*(?:IND)[^)]*\)` at the head of `s`: optional leading
whitespace, a shortest delimited group whose contents mention a version
indicator (case-insensitively); returns the rest after the group. -/
def indicatorGroupAt (o cl : Char) (s : Str) : Option Str :=
  let afterWs := s.dropWhile (fun c => isWsC c)
  match afterWs with
  | [] => none
  | c :: rest =>
    if c = o then
      match (rest.takeWhile (fun d => d ≠ cl)), dropThroughClose cl rest with
      | content, some rest' =>
        if containsIndicator content then some rest' else none
      | _, none => none
    else none

/-- Match of `\s*[-–—]\s*(?:IND)` at the head of `s`: the dash-suffix
truncation point of `remove_version_info`. -/
def dashIndicatorAt (s : Str) : Bool :=
  let afterWs := s.dropWhile (fun c => isWsC c)
  match afterWs with
  | [] => false
  | c :: rest =>
    if c = '-' ∨ c = '–' ∨ c = '—' then
      let t := rest.dropWhile (fun d => isWsC d)
      versionIndicators.any (fun w => w.isPrefixOf (lowerStr t))
    else false

/-- Global substitution of indicator-bearing delimited groups (preceded by
optional whitespace) with the empty string, scanning left to right. -/
def removeIndicatorGroupsFuel (o cl : Char) : Nat → Str → Str
  | 0, s => s
  | _ + 1, [] => []
  | fuel + 1, c :: rest =>
    match indicatorGroupAt o cl (c :: rest) with
    | some rest' => removeIndicatorGroupsFuel o cl fuel rest'
    | none => c :: removeIndicatorGroupsFuel o cl fuel rest

def removeIndicatorGroups (o cl : Char) (s : Str) : Str :=
  removeIndicatorGroupsFuel o cl s.length s

/-- Truncate from the first dash-plus-indicator suffix on
(`re.sub(r'\s*[-–—]\s*(?:IND).*$', '', s)`). -/
def truncateDashIndicator : Str → Str
  | [] => []
  | c :: rest =>
    if dashIndicatorAt (c :: rest) then []
    else c :: truncateDashIndicator rest

/-- `MusicNameNormalizer.remove_version_info(name)`. -/
def remove_version_info (name : Str) : Str :=
  trim (truncateDashIndicator
    (removeIndicatorGroups '[' ']' (removeIndicatorGroups '(' ')' name)))

/-- `artists_match(name1, name2)`: threshold 0.90, non-strict. -/
def artists_match (name1 name2 : Str) : Bool :=
  are_similar name1 name2 (mkRat 9 10) false

/-- `albums_match(title1, title2)`: threshold 0.88, non-strict. -/
def albums_match (title1 title2 : Str) : Bool :=
  are_similar title1 title2 (mkRat 88 100) false

/-- `tracks_match(title1, title2)` with the default `allow_versions=True`. -/
def tracks_match (title1 title2 : Str) : Bool :=
  are_similar (remove_version_info title1) (remove_version_info title2)
    (mkRat 85 100) true

example : tracks_match ("Come Together".toList)
    ("Come Together (Remastered 2009)".toList) = true := by decide
example : artists_match ("The Beatles".toList) ("Beatles".toList) = true := by decide
example : artists_match ("The Beatles".toList) ("The Beach Boys".toList) = false := by
  decide
example : get_similarity_score ("ppmqq".toList) ("qqxppym".toList) false = mkRat 1 2 := by
  decide
example : get_similarity_score ("qqxppym".toList) ("ppmqq".toList) false = mkRat 1 3 := by
  decide
example : get_similarity_score ("!!!".toList) ("???".toList) false = 1 := by decide

/-!
Data model of `db_package.models` as read by the aggregator: surrogate ids,
nullable string/int columns as `Option`, Python truthiness made explicit.
-/

/-- Python truthiness of an optional string column (`None` and `""` falsy). -/
def truthyS : Option Str → Bool
  | none => false
  | some s => !s.isEmpty

/-- Python truthiness of an optional integer column (`None` and `0` falsy). -/
def truthyI : Option Int → Bool
  | none => false
  | some i => i != 0

/-- Python truthiness of an optional foreign key (`None` and `0` falsy). -/
def truthyN : Option Nat → Bool
  | none => false
  | some n => n != 0

structure ArtistR where
  id : Nat
  name : Str
  spotify_id : Option Str := none
  lastfm_id : Option Str := none
  discogs_id : Option Str := none
  image_url : Option Str := none
  description : Option Str := none
  created_by_user_id : Option Nat := none
deriving DecidableEq, Repr

structure AlbumR where
  id : Nat
  title : Str
  artist_id : Option Nat := none
  release_year : Option Int := none
  image_url : Option Str := none
  spotify_id : Option Str := none
  lastfm_id : Option Str := none
  discogs_id : Option Str := none
  created_by_user_id : Option Nat := none
deriving DecidableEq, Repr

structure TrackR where
  id : Nat
  title : Str
  artist_id : Option Nat := none
  album_id : Option Nat := none
  duration_seconds : Option Int := none
  spotify_id : Option Str := none
  lastfm_id : Option Str := none
  created_by_user_id : Option Nat := none
deriving DecidableEq, Repr

structure FilterR where
  filter_type : Str
  value : Str
deriving DecidableEq, Repr

structure UserR where
  id : Nat
  filters : List FilterR
deriving DecidableEq, Repr

/-- The relational store: rows in table (insertion) order, similarity-edge
association rows in append order, and the id sequence. -/
structure Store where
  artists : List ArtistR := []
  albums : List AlbumR := []
  tracks : List TrackR := []
  users : List UserR := []
  artistEdges : List (Nat × Nat) := []
  albumEdges : List (Nat × Nat) := []
  trackEdges : List (Nat × Nat) := []
  nextId : Nat := 1
deriving DecidableEq, Repr

/-- A SQLAlchemy session: the committed database plus the pending state the
session sees; `commits` counts `commit()` calls, `scans` counts invocations
of the candidate-scoring primitive (`_compute_*_relationships`). -/
structure Session where
  committed : Store
  pending : Store
  commits : Nat := 0
  scans : Nat := 0
deriving DecidableEq, Repr

/-- `db.rollback()`. -/
def rollback (s : Session) : Session := { s with pending := s.committed }

/-- Provider search results, shaped by the fields the aggregator reads.
Fields accessed by subscript in the source are required, fields accessed
with `.get` are optional. -/
structure SpotifyArtistD where
  id : Str
  name : Str
  images : List Str := []
deriving DecidableEq, Repr

structure LastfmArtistD where
  name : Str
  mbid : Option Str := none
  bioSummary : Option Str := none
  image : List Str := []
deriving DecidableEq, Repr

/-- Discogs artist search result (`title` carries the display name; `id` is
the result id already rendered through `str(...)`). -/
structure DiscogsArtistD where
  id : Str
  title : Str
deriving DecidableEq, Repr

structure SpotifyAlbumD where
  id : Str
  name : Str
  images : List Str := []
  release_date : Option Str := none
  artists : List Str := []
deriving DecidableEq, Repr

structure LastfmAlbumD where
  name : Str
  mbid : Option Str := none
  image : List Str := []
deriving DecidableEq, Repr

/-- Discogs release search result (`id` already rendered through `str(...)`). -/
structure DiscogsReleaseD where
  id : Str
  title : Str := []
  year : Option Str := none
  cover_image : Option Str := none
  thumb : Option Str := none
deriving DecidableEq, Repr

structure SpotifyTrackD where
  id : Str
  name : Str
  duration_ms : Option Int := none
  albumName : Option Str := none
  artists : List Str := []
deriving DecidableEq, Repr

structure LastfmTrackD where
  name : Str
  mbid : Option Str := none
deriving DecidableEq, Repr

/-- The per-user service environment: availability and search behaviour of
each provider (`Except` for a raised exception), the commit-failure
schedule of the storage layer, and the requesting user. -/
structure Env where
  spotifyAvailable : Bool := false
  lastfmAvailable : Bool := false
  discogsAvailable : Bool := false
  spotifySearchArtist : Str → Except Unit (Option SpotifyArtistD) := fun _ => .ok none
  lastfmGetArtistInfo : Str → Except Unit (Option LastfmArtistD) := fun _ => .ok none
  discogsSearchArtist : Str → Except Unit (Option DiscogsArtistD) := fun _ => .ok none
  spotifySearchAlbum : Str → Option Str → Except Unit (Option SpotifyAlbumD) :=
    fun _ _ => .ok none
  lastfmGetAlbumInfo : Str → Str → Except Unit (Option LastfmAlbumD) :=
    fun _ _ => .ok none
  discogsSearchRelease : Str → Except Unit (List DiscogsReleaseD) := fun _ => .ok []
  spotifySearchTrack : Str → Option Str → Except Unit (Option SpotifyTrackD) :=
    fun _ _ => .ok none
  lastfmGetTrackInfo : Str → Str → Except Unit (Option LastfmTrackD) :=
    fun _ _ => .ok none
  commitFails : Nat → Bool := fun _ => false
  userId : Nat := 1

/-- `db.commit()`: publishes the pending state, or raises per the schedule
(the failed transaction stays pending until an explicit rollback). -/
def dbCommit (env : Env) (s : Session) : Except Session Session :=
  if env.commitFails s.commits then
    .error { s with commits := s.commits + 1 }
  else
    .ok { s with committed := s.pending, commits := s.commits + 1 }

/-- `int(...)` on a string: optional surrounding whitespace, optional sign,
at least one digit; anything else raises `ValueError` (`none`). -/
def pyInt (s : Str) : Option Int :=
  let t := trim s
  let core : Option (Bool × Str) :=
    match t with
    | '-' :: rest => some (true, rest)
    | '+' :: rest => some (false, rest)
    | rest => some (false, rest)
  match core with
  | some (neg, digits) =>
    if digits = [] ∨ ¬ digits.all (fun c => c.isDigit) then none
    else
      let n : Nat := digits.foldl (fun acc c => acc * 10 + (c.toNat - 48)) 0
      some (if neg then -(n : Int) else (n : Int))
  | none => none

/-- Stable insertion of `x` into a list sorted descending by `key`. -/
def insDescBy (key : α → Nat) (x : α) : List α → List α
  | [] => [x]
  | y :: ys => if key y < key x then x :: y :: ys else y :: insDescBy key x ys

/-- `order_by(id.desc())`: sort descending by `key`. -/
def sortDescBy (key : α → Nat) (l : List α) : List α :=
  l.foldr (insDescBy key) []

/-- `artist.albums` (the FK-scoped ORM collection). -/
def artistAlbums (st : Store) (aid : Nat) : List AlbumR :=
  st.albums.filter (fun al => al.artist_id == some aid)

/-- `artist.tracks`. -/
def artistTracks (st : Store) (aid : Nat) : List TrackR :=
  st.tracks.filter (fun t => t.artist_id == some aid)

/-- `AggregationService._find_existing_artist_fuzzy`. -/
def find_existing_artist_fuzzy (st : Store) (artist_name : Str) : Option ArtistR :=
  match st.artists.find? (fun a => a.name == artist_name) with
  | some existing => some existing
  | none =>
    (st.artists.take 500).find? (fun artist => artists_match artist.name artist_name)

/-- `AggregationService._find_existing_album_fuzzy`. -/
def find_existing_album_fuzzy (st : Store) (album_title : Str)
    (artist_name : Option Str) : Option AlbumR :=
  let scopedHit : Option AlbumR :=
    match artist_name with
    | some an =>
      match find_existing_artist_fuzzy st an with
      | some artist =>
        match st.albums.find?
            (fun al => al.title == album_title && al.artist_id == some artist.id) with
        | some existing => some existing
        | none =>
          (artistAlbums st artist.id).find? (fun album => albums_match album.title album_title)
      | none => none
    | none => none
  match scopedHit with
  | some a => some a
  | none =>
    match st.albums.find? (fun al => al.title == album_title) with
    | some existing => some existing
    | none =>
      ((sortDescBy AlbumR.id st.albums).take 200).find?
        (fun album => albums_match album.title album_title)

/-- `AggregationService._find_existing_track_fuzzy`. -/
def find_existing_track_fuzzy (st : Store) (track_title : Str)
    (artist_name : Option Str) : Option TrackR :=
  let scopedHit : Option TrackR :=
    match artist_name with
    | some an =>
      match find_existing_artist_fuzzy st an with
      | some artist =>
        match st.tracks.find?
            (fun t => t.title == track_title && t.artist_id == some artist.id) with
        | some existing => some existing
        | none =>
          (artistTracks st artist.id).find? (fun track => tracks_match track.title track_title)
      | none => none
    | none => none
  match scopedHit with
  | some t => some t
  | none =>
    match st.tracks.find? (fun t => t.title == track_title) with
    | some existing => some existing
    | none =>
      ((sortDescBy TrackR.id st.tracks).take 200).find?
        (fun track => tracks_match track.title track_title)

/-- Replace the row with the same id (an ORM object mutation seen by the
session). -/
def sessionSetArtist (s : Session) (a : ArtistR) : Session :=
  { s with pending :=
    { s.pending with artists := s.pending.artists.map (fun x => if x.id = a.id then a else x) } }

/-- `db.add(...)`: append a new row with the next surrogate id. -/
def storeAddArtist (st : Store) (mk : Nat → ArtistR) : Store × ArtistR :=
  let a := mk st.nextId
  ({ st with artists := st.artists ++ [a], nextId := st.nextId + 1 }, a)

def storeAddAlbum (st : Store) (mk : Nat → AlbumR) : Store × AlbumR :=
  let a := mk st.nextId
  ({ st with albums := st.albums ++ [a], nextId := st.nextId + 1 }, a)

def storeAddTrack (st : Store) (mk : Nat → TrackR) : Store × TrackR :=
  let t := mk st.nextId
  ({ st with tracks := st.tracks ++ [t], nextId := st.nextId + 1 }, t)

/-- The update branch of `_create_artist_from_spotify`: `spotify_id` is
assigned unconditionally, `image_url` only when empty. -/
def updateArtistSpotify (e : ArtistR) (d : SpotifyArtistD) : ArtistR :=
  { e with
    spotify_id := some d.id,
    image_url :=
      if ¬ truthyS e.image_url ∧ d.images ≠ [] then some (d.images.headD [])
      else e.image_url }

/-- The update branch of `_create_artist_from_lastfm`: fill-if-empty on all
three fields. -/
def updateArtistLastfm (e : ArtistR) (d : LastfmArtistD) : ArtistR :=
  { e with
    lastfm_id := if ¬ truthyS e.lastfm_id ∧ truthyS d.mbid then d.mbid else e.lastfm_id,
    description :=
      if ¬ truthyS e.description ∧ truthyS d.bioSummary then d.bioSummary
      else e.description,
    image_url :=
      if ¬ truthyS e.image_url ∧ d.image ≠ [] then some (d.image.getLastD [])
      else e.image_url }

/-- The update branch of `_create_artist_from_discogs`: `discogs_id` is
assigned unconditionally. -/
def updateArtistDiscogs (e : ArtistR) (d : DiscogsArtistD) : ArtistR :=
  { e with discogs_id := some d.id }

/-- `AggregationService._create_artist_from_spotify`. -/
def create_artist_from_spotify (env : Env) (d : SpotifyArtistD) (s : Session) :
    Except Session (ArtistR × Session) :=
  match s.pending.artists.find? (fun a => a.spotify_id == some d.id) with
  | some existing => .ok (existing, s)
  | none =>
    match find_existing_artist_fuzzy s.pending d.name with
    | some existing =>
      let e := updateArtistSpotify existing d
      match dbCommit env (sessionSetArtist s e) with
      | .error s' => .error s'
      | .ok s' => .ok (e, s')
    | none =>
      let (st, a) := storeAddArtist s.pending (fun i =>
        { id := i, name := d.name, spotify_id := some d.id,
          image_url := if d.images ≠ [] then some (d.images.headD []) else none,
          created_by_user_id := some env.userId })
      match dbCommit env { s with pending := st } with
      | .error s' => .error s'
      | .ok s' => .ok (a, s')

/-- `AggregationService._create_artist_from_lastfm`. -/
def create_artist_from_lastfm (env : Env) (d : LastfmArtistD) (s : Session) :
    Except Session (ArtistR × Session) :=
  match find_existing_artist_fuzzy s.pending d.name with
  | some existing =>
    let e := updateArtistLastfm existing d
    match dbCommit env (sessionSetArtist s e) with
    | .error s' => .error s'
    | .ok s' => .ok (e, s')
  | none =>
    let (st, a) := storeAddArtist s.pending (fun i =>
      { id := i, name := d.name, lastfm_id := d.mbid,
        image_url := if d.image ≠ [] then some (d.image.getLastD []) else none,
        description := d.bioSummary,
        created_by_user_id := some env.userId })
    match dbCommit env { s with pending := st } with
    | .error s' => .error s'
    | .ok s' => .ok (a, s')

/-- `AggregationService._create_artist_from_discogs`. -/
def create_artist_from_discogs (env : Env) (d : DiscogsArtistD) (s : Session) :
    Except Session (ArtistR × Session) :=
  match s.pending.artists.find? (fun a => a.discogs_id == some d.id) with
  | some existing => .ok (existing, s)
  | none =>
    match find_existing_artist_fuzzy s.pending d.title with
    | some existing =>
      let e := updateArtistDiscogs existing d
      match dbCommit env (sessionSetArtist s e) with
      | .error s' => .error s'
      | .ok s' => .ok (e, s')
    | none =>
      let (st, a) := storeAddArtist s.pending (fun i =>
        { id := i, name := d.title, discogs_id := some d.id,
          created_by_user_id := some env.userId })
      match dbCommit env { s with pending := st } with
      | .error s' => .error s'
      | .ok s' => .ok (a, s')

/-- The `try` body of `_find_or_create_artist`: providers consulted in
priority order, each consulted only when the previous ones had no data; a
raised exception (`.error`) aborts the body with the session as it stood. -/
def artistProvidersBody (env : Env) (name : Str) (s : Session) :
    Except Session (Option ArtistR × Session) :=
  let viaDiscogs : Session → Except Session (Option ArtistR × Session) := fun s =>
    if env.discogsAvailable then
      match env.discogsSearchArtist name with
      | .error _ => .error s
      | .ok (some d) => (create_artist_from_discogs env d s).map (fun p => (some p.1, p.2))
      | .ok none => .ok (none, s)
    else .ok (none, s)
  let viaLastfm : Session → Except Session (Option ArtistR × Session) := fun s =>
    if env.lastfmAvailable then
      match env.lastfmGetArtistInfo name with
      | .error _ => .error s
      | .ok (some d) => (create_artist_from_lastfm env d s).map (fun p => (some p.1, p.2))
      | .ok none => viaDiscogs s
    else viaDiscogs s
  if env.spotifyAvailable then
    match env.spotifySearchArtist name with
    | .error _ => .error s
    | .ok (some d) => (create_artist_from_spotify env d s).map (fun p => (some p.1, p.2))
    | .ok none => viaLastfm s
  else viaLastfm s

/-- `AggregationService._find_or_create_artist`: the `except` clause logs
and returns `None` without rolling back. -/
def find_or_create_artist (env : Env) (name : Str) (s : Session) :
    Option ArtistR × Session :=
  match find_existing_artist_fuzzy s.pending name with
  | some existing => (some existing, s)
  | none =>
    match artistProvidersBody env name s with
    | .ok r => r
    | .error s' => (none, s')

/-- Python `x or y` on optional strings (`None`/`""` falsy). -/
def pyOr (x y : Option Str) : Option Str := if truthyS x then x else y

/-- `aggregated_data` for albums. -/
structure AlbumAgg where
  spotify_data : Option SpotifyAlbumD := none
  lastfm_data : Option LastfmAlbumD := none
  discogs_data : Option DiscogsReleaseD := none
  artist_name : Option Str := none
  title : Str
deriving Repr

/-- `aggregated_data` for tracks.  In `spotifyAlbumName`, the outer
`Option` is the presence of the `album` sub-dict, the inner one the
presence of its `name`. -/
structure TrackAgg where
  spotify_data : Option SpotifyTrackD := none
  lastfm_data : Option LastfmTrackD := none
  artist_name : Option Str := none
  album_title : Option Str := none
  title : Str
deriving Repr

def sessionSetAlbum (s : Session) (a : AlbumR) : Session :=
  { s with pending :=
    { s.pending with albums := s.pending.albums.map (fun x => if x.id = a.id then a else x) } }

def sessionSetTrack (s : Session) (t : TrackR) : Session :=
  { s with pending :=
    { s.pending with tracks := s.pending.tracks.map (fun x => if x.id = t.id then t else x) } }

/-- The update branch of `_create_album_from_aggregated_data`: fill-if-empty
on every field. -/
def updateAlbumAggregated (e : AlbumR) (sid lid did img : Option Str)
    (ry : Option Int) : AlbumR :=
  { e with
    spotify_id := if ¬ truthyS e.spotify_id ∧ truthyS sid then sid else e.spotify_id,
    lastfm_id := if ¬ truthyS e.lastfm_id ∧ truthyS lid then lid else e.lastfm_id,
    discogs_id := if ¬ truthyS e.discogs_id ∧ truthyS did then did else e.discogs_id,
    image_url := if ¬ truthyS e.image_url ∧ truthyS img then img else e.image_url,
    release_year :=
      if ¬ truthyI e.release_year ∧ truthyI ry then ry else e.release_year }

/-- The update branch of `_create_track_from_aggregated_data`: fill-if-empty
on every field (`album_id` is filled when the resolved album object exists). -/
def updateTrackAggregated (e : TrackR) (sid lid : Option Str) (dur : Option Int)
    (albumId : Option Nat) : TrackR :=
  { e with
    spotify_id := if ¬ truthyS e.spotify_id ∧ truthyS sid then sid else e.spotify_id,
    lastfm_id := if ¬ truthyS e.lastfm_id ∧ truthyS lid then lid else e.lastfm_id,
    duration_seconds :=
      if ¬ truthyI e.duration_seconds ∧ truthyI dur then dur else e.duration_seconds,
    album_id := if ¬ truthyN e.album_id ∧ albumId.isSome then albumId else e.album_id }

/-- The `try` body of `_create_album_from_aggregated_data`. -/
def createAlbumBody (env : Env) (ad : AlbumAgg) (s : Session) :
    Except Session (AlbumR × Session) :=
  let (artist, s) :=
    if truthyS ad.artist_name then
      find_or_create_artist env (ad.artist_name.getD []) s
    else
      match ad.spotify_data with
      | some sd =>
        if sd.artists ≠ [] then find_or_create_artist env (sd.artists.headD []) s
        else (none, s)
      | none => (none, s)
  let title : Str :=
    match ad.spotify_data with
    | some sd => sd.name
    | none =>
      match ad.lastfm_data with
      | some ld => ld.name
      | none =>
        match ad.discogs_data with
        | some dd => dd.title
        | none => ad.title
  let image_url : Option Str :=
    if (ad.spotify_data.map (fun sd => !sd.images.isEmpty)).getD false then
      some (((ad.spotify_data.map SpotifyAlbumD.images).getD []).headD [])
    else if (ad.lastfm_data.map (fun ld => !ld.image.isEmpty)).getD false then
      let images := ((ad.lastfm_data.map LastfmAlbumD.image).getD []).filter
        (fun img => !img.isEmpty)
      if images ≠ [] then some (images.getLastD []) else none
    else
      match ad.discogs_data with
      | some dd => pyOr dd.cover_image dd.thumb
      | none => none
  let ry1 : Option Int :=
    match ad.spotify_data with
    | some sd =>
      match sd.release_date with
      | some rd => if rd.isEmpty then none else pyInt (rd.take 4)
      | none => none
    | none => none
  let release_year : Option Int :=
    if ¬ truthyI ry1 then
      match ad.discogs_data with
      | some dd =>
        match dd.year with
        | some y =>
          if y.isEmpty then ry1 else
            match pyInt y with
            | some v => some v
            | none => ry1
        | none => ry1
      | none => ry1
    else ry1
  let spotify_id : Option Str := ad.spotify_data.map SpotifyAlbumD.id
  let lastfm_id : Option Str := ad.lastfm_data.bind LastfmAlbumD.mbid
  let discogs_id : Option Str := ad.discogs_data.map DiscogsReleaseD.id
  let e1 : Option AlbumR :=
    if truthyS spotify_id then
      s.pending.albums.find? (fun al => al.spotify_id == spotify_id)
    else none
  let e2 : Option AlbumR :=
    match e1 with
    | some _ => e1
    | none =>
      if truthyS lastfm_id then
        s.pending.albums.find? (fun al => al.lastfm_id == lastfm_id)
      else none
  let e3 : Option AlbumR :=
    match e2 with
    | some _ => e2
    | none =>
      if truthyS discogs_id then
        s.pending.albums.find? (fun al => al.discogs_id == discogs_id)
      else none
  let existing : Option AlbumR :=
    match e3 with
    | some _ => e3
    | none => find_existing_album_fuzzy s.pending title (artist.map ArtistR.name)
  match existing with
  | some e =>
    let e' := updateAlbumAggregated e spotify_id lastfm_id discogs_id image_url
      release_year
    match dbCommit env (sessionSetAlbum s e') with
    | .error s' => .error s'
    | .ok s' => .ok (e', s')
  | none =>
    let (st, album) := storeAddAlbum s.pending (fun i =>
      { id := i, title := title, artist_id := artist.map ArtistR.id,
        release_year := release_year, image_url := image_url,
        spotify_id := spotify_id, lastfm_id := lastfm_id,
        discogs_id := discogs_id, created_by_user_id := some env.userId })
    match dbCommit env { s with pending := st } with
    | .error s' => .error s'
    | .ok s' => .ok (album, s')

/-- `AggregationService._create_album_from_aggregated_data`: the `except`
clause logs, rolls back and returns `None`. -/
def create_album_from_aggregated_data (env : Env) (ad : AlbumAgg) (s : Session) :
    Option AlbumR × Session :=
  match createAlbumBody env ad s with
  | .ok (a, s') => (some a, s')
  | .error s' => (none, rollback s')

/-- `AggregationService._find_or_create_album`: each provider search is
wrapped in its own `try`, so a provider error only loses that provider. -/
def find_or_create_album (env : Env) (album_title : Str) (artist_name : Option Str)
    (s : Session) : Option AlbumR × Session :=
  match find_existing_album_fuzzy s.pending album_title artist_name with
  | some existing => (some existing, s)
  | none =>
    let spotify_data : Option SpotifyAlbumD :=
      if env.spotifyAvailable then
        match env.spotifySearchAlbum album_title artist_name with
        | .ok r => r
        | .error _ => none
      else none
    let lastfm_data : Option LastfmAlbumD :=
      if env.lastfmAvailable ∧ truthyS artist_name then
        match env.lastfmGetAlbumInfo (artist_name.getD []) album_title with
        | .ok r => r
        | .error _ => none
      else none
    let search_query : Str :=
      if truthyS artist_name then artist_name.getD [] ++ ' ' :: album_title
      else album_title
    let discogs_data : Option DiscogsReleaseD :=
      if env.discogsAvailable then
        match env.discogsSearchRelease search_query with
        | .ok results =>
          (results.take 3).find? (fun r => albums_match r.title album_title)
        | .error _ => none
      else none
    if spotify_data.isSome ∨ lastfm_data.isSome ∨ discogs_data.isSome then
      create_album_from_aggregated_data env
        { spotify_data := spotify_data, lastfm_data := lastfm_data,
          discogs_data := discogs_data, artist_name := artist_name,
          title := album_title } s
    else (none, s)

/-- The `try` body of `_create_track_from_aggregated_data`. -/
def createTrackBody (env : Env) (ad : TrackAgg) (s : Session) :
    Except Session (TrackR × Session) :=
  let (artist, s) :=
    if truthyS ad.artist_name then
      find_or_create_artist env (ad.artist_name.getD []) s
    else
      match ad.spotify_data with
      | some sd =>
        if sd.artists ≠ [] then find_or_create_artist env (sd.artists.headD []) s
        else (none, s)
      | none => (none, s)
  let album_title : Option Str :=
    match ad.spotify_data.bind SpotifyTrackD.albumName with
    | some nameOpt => nameOpt
    | none => if truthyS ad.album_title then ad.album_title else none
  let (album, s) :=
    if truthyS album_title ∧ artist.isSome then
      find_or_create_album env (album_title.getD [])
        (some ((artist.map ArtistR.name).getD [])) s
    else (none, s)
  let title : Str :=
    match ad.spotify_data with
    | some sd => sd.name
    | none =>
      match ad.lastfm_data with
      | some ld => ld.name
      | none => ad.title
  let duration_seconds : Option Int :=
    match ad.spotify_data with
    | some sd =>
      match sd.duration_ms with
      | some ms => if ms ≠ 0 then some (Int.fdiv ms 1000) else none
      | none => none
    | none => none
  let spotify_id : Option Str := ad.spotify_data.map SpotifyTrackD.id
  let lastfm_id : Option Str := ad.lastfm_data.bind LastfmTrackD.mbid
  let e1 : Option TrackR :=
    if truthyS spotify_id then
      s.pending.tracks.find? (fun t => t.spotify_id == spotify_id)
    else none
  let e2 : Option TrackR :=
    match e1 with
    | some _ => e1
    | none =>
      if truthyS lastfm_id then
        s.pending.tracks.find? (fun t => t.lastfm_id == lastfm_id)
      else none
  let existing : Option TrackR :=
    match e2 with
    | some _ => e2
    | none => find_existing_track_fuzzy s.pending title (artist.map ArtistR.name)
  match existing with
  | some e =>
    let e' := updateTrackAggregated e spotify_id lastfm_id duration_seconds
      (album.map AlbumR.id)
    match dbCommit env (sessionSetTrack s e') with
    | .error s' => .error s'
    | .ok s' => .ok (e', s')
  | none =>
    let (st, track) := storeAddTrack s.pending (fun i =>
      { id := i, title := title, artist_id := artist.map ArtistR.id,
        album_id := album.map AlbumR.id, duration_seconds := duration_seconds,
        spotify_id := spotify_id, lastfm_id := lastfm_id,
        created_by_user_id := some env.userId })
    match dbCommit env { s with pending := st } with
    | .error s' => .error s'
    | .ok s' => .ok (track, s')

/-- `AggregationService._create_track_from_aggregated_data`: the `except`
clause logs, rolls back and returns `None`. -/
def create_track_from_aggregated_data (env : Env) (ad : TrackAgg) (s : Session) :
    Option TrackR × Session :=
  match createTrackBody env ad s with
  | .ok (t, s') => (some t, s')
  | .error s' => (none, rollback s')

/-- `AggregationService._find_or_create_track`. -/
def find_or_create_track (env : Env) (track_title : Str) (artist_name : Option Str)
    (album_title : Option Str) (s : Session) : Option TrackR × Session :=
  match find_existing_track_fuzzy s.pending track_title artist_name with
  | some existing => (some existing, s)
  | none =>
    let spotify_data : Option SpotifyTrackD :=
      if env.spotifyAvailable then
        match env.spotifySearchTrack track_title artist_name with
        | .ok r => r
        | .error _ => none
      else none
    let lastfm_data : Option LastfmTrackD :=
      if env.lastfmAvailable ∧ truthyS artist_name then
        match env.lastfmGetTrackInfo (artist_name.getD []) track_title with
        | .ok r => r
        | .error _ => none
      else none
    if spotify_data.isSome ∨ lastfm_data.isSome then
      create_track_from_aggregated_data env
        { spotify_data := spotify_data, lastfm_data := lastfm_data,
          artist_name := artist_name, album_title := album_title,
          title := track_title } s
    else (none, s)

/-- Maximal word-character runs of a string (`re.findall(r'\w+', s)`). -/
def wordRunsFuel : Nat → Str → List Str
  | 0, _ => []
  | _ + 1, [] => []
  | fuel + 1, c :: rest =>
    if isWordC c then
      ((c :: rest).takeWhile isWordC) :: wordRunsFuel fuel ((c :: rest).dropWhile isWordC)
    else wordRunsFuel fuel rest

def wordRuns (s : Str) : List Str := wordRunsFuel s.length s

/-- `AggregationService._text_similarity`: Jaccard overlap of word sets. -/
def text_similarity (text1 text2 : Str) : ℚ :=
  if text1 = [] ∨ text2 = [] then mkRat 0 1
  else
    let words1 := (wordRuns (lowerStr text1)).dedup
    let words2 := (wordRuns (lowerStr text2)).dedup
    if words1 = [] ∨ words2 = [] then mkRat 0 1
    else
      let intersection := (words1.filter (fun w => words2.contains w)).length
      let union := (words1 ++ words2.filter (fun w => !words1.contains w)).length
      mkRat intersection union

/-- `AggregationService._compute_album_overlap`. -/
def compute_album_overlap (st : Store) (artist1 artist2 : ArtistR) : ℚ :=
  let al1 := artistAlbums st artist1.id
  let al2 := artistAlbums st artist2.id
  if al1 = [] ∨ al2 = [] then mkRat 0 1
  else
    let matched := (al1.filter (fun x => al2.any (fun y => albums_match x.title y.title))).length
    let maxPossible := if al1.length ≤ al2.length then al1.length else al2.length
    mkRat matched maxPossible

/-- `AggregationService._compute_duration_similarity`. -/
def compute_duration_similarity (st : Store) (artist1 artist2 : ArtistR) : ℚ :=
  let t1 := (artistTracks st artist1.id).filter (fun t => truthyI t.duration_seconds)
  let t2 := (artistTracks st artist2.id).filter (fun t => truthyI t.duration_seconds)
  if t1 = [] ∨ t2 = [] then mkRat 0 1
  else
    let sum1 : Int := (t1.map (fun t => t.duration_seconds.getD 0)).foldl (· + ·) 0
    let sum2 : Int := (t2.map (fun t => t.duration_seconds.getD 0)).foldl (· + ·) 0
    let avg1 := mkRat sum1 t1.length
    let avg2 := mkRat sum2 t2.length
    let diff := qAbs (qSub avg1 avg2)
    if diff ≤ mkRat 120 1 then qSub (mkRat 1 1) (qDiv diff (mkRat 120 1))
    else mkRat 0 1

/-- `AggregationService._compute_artist_similarity`. -/
def compute_artist_similarity (st : Store) (artist1 artist2 : ArtistR) : ℚ :=
  let platform :=
    qAdd (qAdd
      (if truthyS artist1.spotify_id ∧ truthyS artist2.spotify_id then mkRat 3 10
       else mkRat 0 1)
      (if truthyS artist1.lastfm_id ∧ truthyS artist2.lastfm_id then mkRat 2 10
       else mkRat 0 1))
      (if truthyS artist1.discogs_id ∧ truthyS artist2.discogs_id then mkRat 1 10
       else mkRat 0 1)
  let score := if mkRat 4 10 ≤ platform then mkRat 4 10 else platform
  let name_score := get_similarity_score artist1.name artist2.name false
  let score :=
    if mkRat 8 10 < name_score then qAdd score (qMul (mkRat 2 10) name_score)
    else score
  let score :=
    if truthyS artist1.description ∧ truthyS artist2.description then
      qAdd score (qMul (mkRat 2 10)
        (text_similarity (artist1.description.getD []) (artist2.description.getD [])))
    else score
  let score := qAdd score (qMul (mkRat 2 10) (compute_album_overlap st artist1 artist2))
  let score :=
    qAdd score (qMul (mkRat 1 10) (compute_duration_similarity st artist1 artist2))
  if mkRat 1 1 ≤ score then mkRat 1 1 else score

/-- `AggregationService._compute_album_similarity`. -/
def compute_album_similarity (album1 album2 : AlbumR) : ℚ :=
  let score :=
    qAdd (qAdd
      (if truthyS album1.spotify_id ∧ truthyS album2.spotify_id then mkRat 3 10
       else mkRat 0 1)
      (if truthyS album1.lastfm_id ∧ truthyS album2.lastfm_id then mkRat 2 10
       else mkRat 0 1))
      (if truthyS album1.discogs_id ∧ truthyS album2.discogs_id then mkRat 1 10
       else mkRat 0 1)
  let score :=
    if truthyN album1.artist_id ∧ truthyN album2.artist_id ∧
        album1.artist_id = album2.artist_id then
      qAdd score (mkRat 4 10)
    else score
  let score :=
    if truthyI album1.release_year ∧ truthyI album2.release_year then
      let yearDiff := (album1.release_year.getD 0 - album2.release_year.getD 0).natAbs
      if yearDiff ≤ 5 then
        qAdd score (qMul (mkRat 1 10) (qSub (mkRat 1 1) (mkRat yearDiff 5)))
      else score
    else score
  if mkRat 1 1 ≤ score then mkRat 1 1 else score

/-- `AggregationService._compute_track_similarity`. -/
def compute_track_similarity (track1 track2 : TrackR) : ℚ :=
  let score :=
    qAdd
      (if truthyS track1.spotify_id ∧ truthyS track2.spotify_id then mkRat 3 10
       else mkRat 0 1)
      (if truthyS track1.lastfm_id ∧ truthyS track2.lastfm_id then mkRat 2 10
       else mkRat 0 1)
  let score :=
    if truthyN track1.artist_id ∧ truthyN track2.artist_id ∧
        track1.artist_id = track2.artist_id then
      qAdd score (mkRat 3 10)
    else score
  let score :=
    if truthyN track1.album_id ∧ truthyN track2.album_id ∧
        track1.album_id = track2.album_id then
      qAdd score (mkRat 2 10)
    else score
  let score :=
    if truthyI track1.duration_seconds ∧ truthyI track2.duration_seconds then
      let durationDiff :=
        (track1.duration_seconds.getD 0 - track2.duration_seconds.getD 0).natAbs
      if durationDiff ≤ 30 then
        qAdd score (qMul (mkRat 2 10) (qSub (mkRat 1 1) (mkRat durationDiff 30)))
      else score
    else score
  let title_score := get_similarity_score track1.title track2.title false
  let score := qAdd score (qMul (mkRat 1 10) title_score)
  if mkRat 1 1 ≤ score then mkRat 1 1 else score

/-- Stable insertion into a list sorted descending by score (Python's stable
`sort(key=..., reverse=True)`). -/
def insScoreDesc (x : α × ℚ) : List (α × ℚ) → List (α × ℚ)
  | [] => [x]
  | y :: ys => if y.2 < x.2 then x :: y :: ys else y :: insScoreDesc x ys

def sortScoreDesc (l : List (α × ℚ)) : List (α × ℚ) := l.foldr insScoreDesc []

/-- `AggregationService._compute_artist_relationships`: candidate pool
excludes the target, scores ≤ 0.1 are dropped, stable sort descending,
top `n` returned. -/
def compute_artist_relationships (st : Store) (target : ArtistR) (top_n : Nat) :
    List ArtistR :=
  let allArtists := (st.artists.filter (fun a => a.id != target.id)).take 1000
  if allArtists = [] then []
  else
    let scored := allArtists.filterMap (fun candidate =>
      let score := compute_artist_similarity st target candidate
      if mkRat 1 10 < score then some (candidate, score) else none)
    ((sortScoreDesc scored).take top_n).map Prod.fst

/-- `AggregationService._compute_album_relationships`. -/
def compute_album_relationships (st : Store) (target : AlbumR) (top_n : Nat) :
    List AlbumR :=
  let allAlbums := (st.albums.filter (fun a => a.id != target.id)).take 500
  if allAlbums = [] then []
  else
    let scored := allAlbums.filterMap (fun candidate =>
      let score := compute_album_similarity target candidate
      if mkRat 1 10 < score then some (candidate, score) else none)
    ((sortScoreDesc scored).take top_n).map Prod.fst

/-- `AggregationService._compute_track_relationships`. -/
def compute_track_relationships (st : Store) (target : TrackR) (top_n : Nat) :
    List TrackR :=
  let allTracks := (st.tracks.filter (fun t => t.id != target.id)).take 500
  if allTracks = [] then []
  else
    let scored := allTracks.filterMap (fun candidate =>
      let score := compute_track_similarity target candidate
      if mkRat 1 10 < score then some (candidate, score) else none)
    ((sortScoreDesc scored).take top_n).map Prod.fst

/-- `AggregationService._apply_artist_filters`. -/
def apply_artist_filters (st : Store) (user_id : Nat) (artists : List ArtistR) :
    List ArtistR :=
  match st.users.find? (fun u => u.id == user_id) with
  | none => artists
  | some user =>
    if user.filters = [] then artists
    else
      user.filters.foldl (fun filtered f =>
        if f.filter_type == "exclude_genre".toList then
          filtered.filter (fun a =>
            !(truthyS a.description &&
              strContains (lowerStr (a.description.getD [])) (lowerStr f.value)))
        else if f.filter_type == "exclude_artist".toList then
          filtered.filter (fun a => lowerStr a.name != lowerStr f.value)
        else filtered) artists

/-- `AggregationService._apply_album_filters`. -/
def apply_album_filters (st : Store) (user_id : Nat) (albums : List AlbumR) :
    List AlbumR :=
  match st.users.find? (fun u => u.id == user_id) with
  | none => albums
  | some user =>
    if user.filters = [] then albums
    else
      user.filters.foldl (fun filtered f =>
        if f.filter_type == "exclude_genre".toList then
          filtered.filter (fun a =>
            !(truthyS (some a.title) &&
              strContains (lowerStr a.title) (lowerStr f.value)))
        else if f.filter_type == "exclude_album".toList then
          filtered.filter (fun a => lowerStr a.title != lowerStr f.value)
        else filtered) albums

/-- `AggregationService._apply_track_filters`: note the `min_duration`
survivor condition is `t.duration_seconds and t.duration_seconds >= v`,
so a `0` (or `NULL`) duration never survives. -/
def apply_track_filters (st : Store) (user_id : Nat) (tracks : List TrackR) :
    List TrackR :=
  match st.users.find? (fun u => u.id == user_id) with
  | none => tracks
  | some user =>
    if user.filters = [] then tracks
    else
      user.filters.foldl (fun filtered f =>
        if f.filter_type == "exclude_track".toList then
          filtered.filter (fun t => lowerStr t.title != lowerStr f.value)
        else if f.filter_type == "min_duration".toList then
          match pyInt f.value with
          | some min_duration =>
            filtered.filter (fun t =>
              truthyI t.duration_seconds &&
                decide (min_duration ≤ t.duration_seconds.getD 0))
          | none => filtered
        else filtered) tracks

/-- `artist.related_artists` target ids, in edge insertion order. -/
def artistEdgeTargets (st : Store) (aid : Nat) : List Nat :=
  (st.artistEdges.filter (fun e => e.1 == aid)).map Prod.snd

def lookupArtist (st : Store) (i : Nat) : Option ArtistR :=
  st.artists.find? (fun a => a.id == i)

/-- `artist.related_artists` as row objects, in edge insertion order. -/
def relatedArtistsOf (st : Store) (aid : Nat) : List ArtistR :=
  (artistEdgeTargets st aid).filterMap (lookupArtist st)

/-- `AggregationService.get_related_artists`. -/
def get_related_artists (env : Env) (artist_name : Str) (top_n : Nat) (s : Session) :
    List ArtistR × Session :=
  let (artistOpt, s) :=
    match find_existing_artist_fuzzy s.pending artist_name with
    | some a => (some a, s)
    | none => find_or_create_artist env artist_name s
  match artistOpt with
  | none => ([], s)
  | some artist =>
    let cached := relatedArtistsOf s.pending artist.id
    let (related, s) :=
      if top_n ≤ cached.length then (cached.take top_n, s)
      else
        let s := { s with scans := s.scans + 1 }
        let related := compute_artist_relationships s.pending artist top_n
        let s := related.foldl (fun s r =>
          if (artistEdgeTargets s.pending artist.id).contains r.id then s
          else
            { s with pending :=
              { s.pending with artistEdges := s.pending.artistEdges ++ [(artist.id, r.id)] } })
          s
        let s :=
          match dbCommit env s with
          | .ok s' => s'
          | .error s' => rollback s'
        (related, s)
    ((apply_artist_filters s.pending env.userId related).take top_n, s)

structure CombinedNodes where
  artists : List ArtistR := []
  albums : List AlbumR := []
  tracks : List TrackR := []
deriving DecidableEq, Repr

/-- The single `try` body of `get_combined_nodes`, with the partially built
`nodes` dict carried out through a raised exception.  The branch bodies are
the three `get_related_*` operations; they are taken as parameters because
their storage layer may raise at any query. -/
def combinedTry
    (fa : Str → Except Unit (List ArtistR))
    (fb : Str → Option Str → Except Unit (List AlbumR))
    (ft : Str → Option Str → Except Unit (List TrackR))
    (artist_name album_title track_title : Option Str) :
    Except CombinedNodes CombinedNodes :=
  let step1 : Except CombinedNodes CombinedNodes :=
    if truthyS artist_name then
      match fa (artist_name.getD []) with
      | .error _ => .error {}
      | .ok arts => .ok { artists := arts }
    else .ok {}
  match step1 with
  | .error n => .error n
  | .ok n1 =>
    let step2 : Except CombinedNodes CombinedNodes :=
      if truthyS album_title then
        match fb (album_title.getD []) artist_name with
        | .error _ => .error n1
        | .ok albs => .ok { n1 with albums := albs }
      else .ok n1
    match step2 with
    | .error n => .error n
    | .ok n2 =>
      if truthyS track_title then
        match ft (track_title.getD []) artist_name with
        | .error _ => .error n2
        | .ok trs => .ok { n2 with tracks := trs }
      else .ok n2

/-- `AggregationService.get_combined_nodes`: one `except` around all three
branches; an exception leaves `nodes` as built so far. -/
def get_combined_nodes
    (fa : Str → Except Unit (List ArtistR))
    (fb : Str → Option Str → Except Unit (List AlbumR))
    (ft : Str → Option Str → Except Unit (List TrackR))
    (artist_name album_title track_title : Option Str) : CombinedNodes :=
  match combinedTry fa fb ft artist_name album_title track_title with
  | .ok n => n
  | .error n => n

/-! ## Supporting lemmas -/

theorem mem_insScoreDesc {x y : α × ℚ} {l : List (α × ℚ)}
    (h : x ∈ insScoreDesc y l) : x = y ∨ x ∈ l := by
  induction l with
  | nil => simpa [insScoreDesc] using h
  | cons z zs ih =>
    by_cases hz : z.2 < y.2
    · simp only [insScoreDesc, if_pos hz, List.mem_cons] at h
      rcases h with h | h
      · exact Or.inl h
      · exact Or.inr (List.mem_cons.mpr h)
    · simp only [insScoreDesc, if_neg hz, List.mem_cons] at h
      rcases h with h | h
      · exact Or.inr (by simp [h])
      · rcases ih h with h' | h'
        · exact Or.inl h'
        · exact Or.inr (List.mem_cons_of_mem _ h')

theorem mem_sortScoreDesc {x : α × ℚ} {l : List (α × ℚ)}
    (h : x ∈ sortScoreDesc l) : x ∈ l := by
  induction l with
  | nil => simp [sortScoreDesc] at h
  | cons z zs ih =>
    simp only [sortScoreDesc, List.foldr_cons] at h
    rcases mem_insScoreDesc h with h' | h'
    · simp [h']
    · exact List.mem_cons_of_mem _ (ih h')

/-! ## C8: no self-relation -/

/-- C8: for every store, target and topN, the computed related-entity lists
never contain the queried entity itself (the candidate pool excludes the
target by id), for all three entity kinds. -/
theorem c8_no_self_relation (st : Store) (a : ArtistR) (al : AlbumR) (t : TrackR)
    (n : Nat) :
    (∀ x ∈ compute_artist_relationships st a n, x.id ≠ a.id) ∧
    (∀ x ∈ compute_album_relationships st al n, x.id ≠ al.id) ∧
    (∀ x ∈ compute_track_relationships st t n, x.id ≠ t.id) := by
  refine ⟨?_, ?_, ?_⟩
  · intro x hx
    simp only [compute_artist_relationships] at hx
    split at hx
    · simp at hx
    · obtain ⟨p, hp, rfl⟩ := List.mem_map.mp hx
      have hp' := mem_sortScoreDesc (List.mem_of_mem_take hp)
      obtain ⟨c, hc, heq⟩ := List.mem_filterMap.mp hp'
      have hcand : c ∈ st.artists.filter (fun a' => a'.id != a.id) :=
        List.mem_of_mem_take hc
      have hid : (c.id != a.id) = true := (List.mem_filter.mp hcand).2
      have : p.1 = c := by
        by_cases hsc : mkRat 1 10 < compute_artist_similarity st a c
        · simp [hsc] at heq; simp [← heq]
        · simp [hsc] at heq
      rw [this]
      simpa using hid
  · intro x hx
    simp only [compute_album_relationships] at hx
    split at hx
    · simp at hx
    · obtain ⟨p, hp, rfl⟩ := List.mem_map.mp hx
      have hp' := mem_sortScoreDesc (List.mem_of_mem_take hp)
      obtain ⟨c, hc, heq⟩ := List.mem_filterMap.mp hp'
      have hcand : c ∈ st.albums.filter (fun a' => a'.id != al.id) :=
        List.mem_of_mem_take hc
      have hid : (c.id != al.id) = true := (List.mem_filter.mp hcand).2
      have : p.1 = c := by
        by_cases hsc : mkRat 1 10 < compute_album_similarity al c
        · simp [hsc] at heq; simp [← heq]
        · simp [hsc] at heq
      rw [this]
      simpa using hid
  · intro x hx
    simp only [compute_track_relationships] at hx
    split at hx
    · simp at hx
    · obtain ⟨p, hp, rfl⟩ := List.mem_map.mp hx
      have hp' := mem_sortScoreDesc (List.mem_of_mem_take hp)
      obtain ⟨c, hc, heq⟩ := List.mem_filterMap.mp hp'
      have hcand : c ∈ st.tracks.filter (fun t' => t'.id != t.id) :=
        List.mem_of_mem_take hc
      have hid : (c.id != t.id) = true := (List.mem_filter.mp hcand).2
      have : p.1 = c := by
        by_cases hsc : mkRat 1 10 < compute_track_similarity t c
        · simp [hsc] at heq; simp [← heq]
        · simp [hsc] at heq
      rw [this]
      simpa using hid

def c8Store : Store :=
  { artists :=
      [{ id := 1, name := "aa".toList, spotify_id := some ("s1".toList) },
       { id := 2, name := "bb".toList, spotify_id := some ("s2".toList) }],
    nextId := 3 }

def c8Target : ArtistR := { id := 1, name := "aa".toList, spotify_id := some ("s1".toList) }

def c8Cand : ArtistR := { id := 2, name := "bb".toList, spotify_id := some ("s2".toList) }

/-- C8 witness: on a concrete store the computed list is non-trivial and the
theorem applies to its member. -/
theorem c8_no_self_relation_witness :
    c8Cand.id ≠ c8Target.id ∧
      c8Cand ∈ compute_artist_relationships c8Store c8Target 5 :=
  ⟨(c8_no_self_relation c8Store c8Target { id := 1, title := [] }
      { id := 1, title := [] } 5).1 c8Cand (by decide), by decide⟩

/-! ## C9: the `min_duration` filter -/

def c9Store : Store :=
  { users := [{ id := 1,
                filters := [{ filter_type := "min_duration".toList,
                              value := "0".toList }] }] }

def c9Track : TrackR := { id := 1, title := "x".toList, duration_seconds := some 0 }

/-- C9 counterexample: with `min_duration = 0`, a track whose duration is
populated with `0` satisfies "populated and `>= v`" yet is removed (Python
truthiness: `t.duration_seconds and t.duration_seconds >= v`). -/
theorem c9_min_duration_counterexample :
    apply_track_filters c9Store 1 [c9Track] = [] ∧
    c9Track.duration_seconds = some 0 ∧
    [c9Track].filter
        (fun t => t.duration_seconds.isSome && decide ((0 : Int) ≤ t.duration_seconds.getD 0))
      = [c9Track] := by decide

/-- C9 amended: for a user whose single filter is `min_duration` with a
parseable value `v`, the survivors are exactly the tracks whose duration is
truthy (non-`None` **and** non-zero) and at least `v`. -/
theorem c9_min_duration_amended (st : Store) (uid : Nat) (tracks : List TrackR)
    (u : UserR) (fval : Str) (v : Int)
    (hu : st.users.find? (fun x => x.id == uid) = some u)
    (hf : u.filters = [{ filter_type := "min_duration".toList, value := fval }])
    (hv : pyInt fval = some v) :
    apply_track_filters st uid tracks =
      tracks.filter (fun t =>
        truthyI t.duration_seconds && decide (v ≤ t.duration_seconds.getD 0)) := by
  simp [apply_track_filters, hu, hf, hv]

def c9wStore : Store :=
  { users := [{ id := 4,
                filters := [{ filter_type := "min_duration".toList,
                              value := "90".toList }] }] }

def c9wTracks : List TrackR :=
  [{ id := 1, title := "a".toList, duration_seconds := some 120 },
   { id := 2, title := "b".toList, duration_seconds := some 30 },
   { id := 3, title := "c".toList, duration_seconds := none },
   { id := 4, title := "d".toList, duration_seconds := some 0 }]

/-- C9 witness. -/
theorem c9_min_duration_witness :
    apply_track_filters c9wStore 4 c9wTracks =
      c9wTracks.filter (fun t =>
        truthyI t.duration_seconds && decide ((90 : Int) ≤ t.duration_seconds.getD 0)) :=
  c9_min_duration_amended c9wStore 4 c9wTracks
    { id := 4, filters := [{ filter_type := "min_duration".toList, value := "90".toList }] }
    ("90".toList) 90 (by decide) (by decide) (by decide)

/-! ## C3: `get_combined_nodes` branch dependence -/

def c3Track : TrackR := { id := 7, title := "t".toList }

/-- C3 counterexample: the artist branch raises; the requested track branch
would succeed with a non-empty result, but the single `try` around all
three branches leaves `tracks` empty. -/
theorem c3_branch_counterexample :
    get_combined_nodes (fun _ => .error ()) (fun _ _ => .ok [])
        (fun _ _ => .ok [c3Track]) (some ("a".toList)) none (some ("t".toList)) =
      { artists := [], albums := [], tracks := [] } ∧
    (fun (_ : Str) (_ : Option Str) => (Except.ok [c3Track] : Except Unit (List TrackR)))
        ("t".toList) (some ("a".toList)) = .ok [c3Track] :=
  ⟨by decide, rfl⟩

/-- C3 amended: the three branches run sequentially inside one `try`; a
raised exception in a branch leaves that branch and every later requested
branch empty, earlier branches keep their results, and nothing propagates. -/
theorem c3_single_try_amended
    (fa : Str → Except Unit (List ArtistR))
    (fb : Str → Option Str → Except Unit (List AlbumR))
    (ft : Str → Option Str → Except Unit (List TrackR))
    (an bt tt : Option Str) (arts : List ArtistR) (albs : List AlbumR) :
    (truthyS an = true → fa (an.getD []) = .error () →
      get_combined_nodes fa fb ft an bt tt = { artists := [], albums := [], tracks := [] }) ∧
    (truthyS an = true → fa (an.getD []) = .ok arts →
      truthyS bt = true → fb (bt.getD []) an = .error () →
      get_combined_nodes fa fb ft an bt tt = { artists := arts, albums := [], tracks := [] }) ∧
    (truthyS an = true → fa (an.getD []) = .ok arts →
      truthyS bt = true → fb (bt.getD []) an = .ok albs →
      truthyS tt = true → ft (tt.getD []) an = .error () →
      get_combined_nodes fa fb ft an bt tt = { artists := arts, albums := albs, tracks := [] }) ∧
    (∀ trs : List TrackR, truthyS an = true → fa (an.getD []) = .ok arts →
      truthyS bt = true → fb (bt.getD []) an = .ok albs →
      truthyS tt = true → ft (tt.getD []) an = .ok trs →
      get_combined_nodes fa fb ft an bt tt = { artists := arts, albums := albs, tracks := trs }) := by
  refine ⟨?_, ?_, ?_, ?_⟩
  · intro ha hfa
    simp [get_combined_nodes, combinedTry, ha, hfa]
  · intro ha hfa hb hfb
    simp [get_combined_nodes, combinedTry, ha, hfa, hb, hfb]
  · intro ha hfa hb hfb htt hft
    simp [get_combined_nodes, combinedTry, ha, hfa, hb, hfb, htt, hft]
  · intro trs ha hfa hb hfb htt hft
    simp [get_combined_nodes, combinedTry, ha, hfa, hb, hfb, htt, hft]

/-- C3 witness: a failing artist branch empties every branch. -/
theorem c3_single_try_witness :
    get_combined_nodes (fun _ => .error ()) (fun _ _ => .ok [])
        (fun _ _ => .ok [c3Track]) (some ("aa".toList)) (some ("bb".toList))
        (some ("t".toList)) =
      { artists := [], albums := [], tracks := [] } :=
  (c3_single_try_amended (fun _ => .error ()) (fun _ _ => .ok [])
    (fun _ _ => .ok [c3Track]) (some ("aa".toList)) (some ("bb".toList))
    (some ("t".toList)) [] []).1 (by decide) rfl

/-! ## C10: fuzzy lookup falls back past the artist hint -/

/-- C10: when the artist hint resolves but neither the scoped exact nor the
scoped fuzzy lookup hits, the album/track fuzzy finder falls back to an
unscoped exact-title match and then an unscoped fuzzy scan over the 200
most recent rows — so the returned entity may belong to another artist. -/
theorem c10_hint_fallback (st : Store) (title tr_title an : Str) (A : ArtistR) :
    (find_existing_artist_fuzzy st an = some A →
     st.albums.find? (fun al => al.title == title && al.artist_id == some A.id) = none →
     (artistAlbums st A.id).find? (fun album => albums_match album.title title) = none →
     find_existing_album_fuzzy st title (some an) =
       (match st.albums.find? (fun al => al.title == title) with
        | some e => some e
        | none => ((sortDescBy AlbumR.id st.albums).take 200).find?
            (fun album => albums_match album.title title))) ∧
    (find_existing_artist_fuzzy st an = some A →
     st.tracks.find? (fun t => t.title == tr_title && t.artist_id == some A.id) = none →
     (artistTracks st A.id).find? (fun track => tracks_match track.title tr_title) = none →
     find_existing_track_fuzzy st tr_title (some an) =
       (match st.tracks.find? (fun t => t.title == tr_title) with
        | some e => some e
        | none => ((sortDescBy TrackR.id st.tracks).take 200).find?
            (fun track => tracks_match track.title tr_title))) := by
  constructor
  · intro h1 h2 h3
    simp [find_existing_album_fuzzy, h1, h2, h3]
  · intro h1 h2 h3
    simp [find_existing_track_fuzzy, h1, h2, h3]

def c10Artist : ArtistR := { id := 1, name := "aa".toList }

def c10Album : AlbumR := { id := 1, title := "zz".toList, artist_id := some 2 }

def c10Store : Store := { artists := [c10Artist], albums := [c10Album], nextId := 3 }

/-- C10 witness: the hint resolves to artist 1, yet the album returned by
the fallback belongs to artist 2. -/
theorem c10_hint_fallback_witness :
    find_existing_album_fuzzy c10Store ("zz".toList) (some ("aa".toList)) = some c10Album ∧
    c10Album.artist_id = some 2 ∧ c10Artist.id = 1 ∧
    find_existing_artist_fuzzy c10Store ("aa".toList) = some c10Artist :=
  ⟨((c10_hint_fallback c10Store ("zz".toList) [] ("aa".toList) c10Artist).1
      (by decide) (by decide) (by decide)).trans (by decide),
   by decide, by decide, by decide⟩

/-! ## C7: cache-sufficiency short circuit -/

/-- C7: when the resolved artist already has at least `top_n` cached edges,
`get_related_artists` returns the first `top_n` cached targets in edge
insertion order (then the filter projection), performs no candidate
scan/scoring, and leaves the session — including the scan counter —
untouched. -/
theorem c7_cache_short_circuit (env : Env) (nm : Str) (top_n : Nat) (s : Session)
    (a : ArtistR)
    (hfind : find_existing_artist_fuzzy s.pending nm = some a)
    (hcache : top_n ≤ (relatedArtistsOf s.pending a.id).length) :
    get_related_artists env nm top_n s =
      ((apply_artist_filters s.pending env.userId
          ((relatedArtistsOf s.pending a.id).take top_n)).take top_n, s) := by
  simp [get_related_artists, hfind, hcache]

def c7A1 : ArtistR := { id := 1, name := "nm".toList }

def c7A2 : ArtistR := { id := 2, name := "other".toList }

def c7Store : Store :=
  { artists := [c7A1, c7A2], artistEdges := [(1, 2)], nextId := 3 }

def c7Sess : Session := { committed := c7Store, pending := c7Store }

/-- C7 witness: one cached edge suffices for `top_n = 1`; the result is the
cached target and the session is unchanged. -/
theorem c7_cache_short_circuit_witness :
    get_related_artists {} ("nm".toList) 1 c7Sess = ([c7A2], c7Sess) :=
  (c7_cache_short_circuit {} ("nm".toList) 1 c7Sess c7A1 (by decide)
    (by decide)).trans (by decide)

/-! ## C1: fill-empty-only merge -/

def c1Artist : ArtistR := { id := 1, name := "x".toList, spotify_id := some ("old".toList) }

def c1Store : Store := { artists := [c1Artist], nextId := 2 }

def c1Sess : Session := { committed := c1Store, pending := c1Store }

def c1Data : SpotifyArtistD := { id := "new".toList, name := "x".toList }

/-- C1 counterexample: the Spotify artist-update path overwrites a populated
`spotify_id` ("old") with the incoming id ("new"). -/
theorem c1_overwrite_counterexample :
    c1Artist.spotify_id = some ("old".toList) ∧
    truthyS c1Artist.spotify_id = true ∧
    (create_artist_from_spotify {} c1Data c1Sess).toOption.map
        (fun p => p.1.spotify_id) = some (some ("new".toList)) := by decide

/-- C1 amended: every update path fills only empty fields, except that the
Spotify artist update overwrites `spotify_id` unconditionally and the
Discogs artist update overwrites `discogs_id` unconditionally. -/
theorem c1_fill_empty_amended (e : ArtistR) (al : AlbumR) (t : TrackR)
    (ds : SpotifyArtistD) (dl : LastfmArtistD) (dd : DiscogsArtistD)
    (sid lid did img : Option Str) (ry dur : Option Int) (aid : Option Nat) :
    (truthyS e.lastfm_id = true → (updateArtistLastfm e dl).lastfm_id = e.lastfm_id) ∧
    (truthyS e.description = true →
      (updateArtistLastfm e dl).description = e.description) ∧
    (truthyS e.image_url = true → (updateArtistLastfm e dl).image_url = e.image_url) ∧
    (truthyS e.image_url = true → (updateArtistSpotify e ds).image_url = e.image_url) ∧
    ((updateArtistSpotify e ds).spotify_id = some ds.id) ∧
    ((updateArtistDiscogs e dd).discogs_id = some dd.id) ∧
    ((updateArtistDiscogs e dd).name = e.name ∧
      (updateArtistDiscogs e dd).spotify_id = e.spotify_id ∧
      (updateArtistDiscogs e dd).lastfm_id = e.lastfm_id ∧
      (updateArtistDiscogs e dd).image_url = e.image_url ∧
      (updateArtistDiscogs e dd).description = e.description) ∧
    (truthyS al.spotify_id = true →
      (updateAlbumAggregated al sid lid did img ry).spotify_id = al.spotify_id) ∧
    (truthyS al.lastfm_id = true →
      (updateAlbumAggregated al sid lid did img ry).lastfm_id = al.lastfm_id) ∧
    (truthyS al.discogs_id = true →
      (updateAlbumAggregated al sid lid did img ry).discogs_id = al.discogs_id) ∧
    (truthyS al.image_url = true →
      (updateAlbumAggregated al sid lid did img ry).image_url = al.image_url) ∧
    (truthyI al.release_year = true →
      (updateAlbumAggregated al sid lid did img ry).release_year = al.release_year) ∧
    (truthyS t.spotify_id = true →
      (updateTrackAggregated t sid lid dur aid).spotify_id = t.spotify_id) ∧
    (truthyS t.lastfm_id = true →
      (updateTrackAggregated t sid lid dur aid).lastfm_id = t.lastfm_id) ∧
    (truthyI t.duration_seconds = true →
      (updateTrackAggregated t sid lid dur aid).duration_seconds = t.duration_seconds) ∧
    (truthyN t.album_id = true →
      (updateTrackAggregated t sid lid dur aid).album_id = t.album_id) := by
  refine ⟨?_, ?_, ?_, ?_, ?_, ?_, ?_, ?_, ?_, ?_, ?_, ?_, ?_, ?_, ?_, ?_⟩ <;>
    first
      | (intro h; simp [updateArtistLastfm, updateArtistSpotify, updateArtistDiscogs,
          updateAlbumAggregated, updateTrackAggregated, h])
      | simp [updateArtistSpotify, updateArtistDiscogs]

def c1wArtist : ArtistR :=
  { id := 3, name := "w".toList, lastfm_id := some ("mb1".toList),
    description := some ("desc".toList), image_url := some ("img".toList) }

def c1wLastfm : LastfmArtistD :=
  { name := "w".toList, mbid := some ("mb2".toList),
    bioSummary := some ("other".toList), image := ["i2".toList] }

/-- C1 witness: a fully-populated artist keeps all three fields across the
Last.fm update. -/
theorem c1_fill_empty_witness :
    (updateArtistLastfm c1wArtist c1wLastfm).lastfm_id = c1wArtist.lastfm_id ∧
    (updateArtistLastfm c1wArtist c1wLastfm).description = c1wArtist.description ∧
    (updateArtistLastfm c1wArtist c1wLastfm).image_url = c1wArtist.image_url :=
  ⟨(c1_fill_empty_amended c1wArtist { id := 1, title := [] } { id := 1, title := [] }
      { id := [], name := [] } c1wLastfm { id := [], title := [] }
      none none none none none none none).1 (by decide),
   (c1_fill_empty_amended c1wArtist { id := 1, title := [] } { id := 1, title := [] }
      { id := [], name := [] } c1wLastfm { id := [], title := [] }
      none none none none none none none).2.1 (by decide),
   (c1_fill_empty_amended c1wArtist { id := 1, title := [] } { id := 1, title := [] }
      { id := [], name := [] } c1wLastfm { id := [], title := [] }
      none none none none none none none).2.2.1 (by decide)⟩

/-! ## C2: persistence-error handling during create/update -/

def c2Env : Env :=
  { spotifyAvailable := true,
    spotifySearchArtist := fun _ =>
      .ok (some { id := "s1".toList, name := "nm".toList }),
    commitFails := fun _ => true }

def c2Sess : Session := { committed := {}, pending := {} }

/-- C2 counterexample: a failing commit during artist creation is caught and
`None` is returned, but the transaction is *not* rolled back — the session
keeps the uncommitted artist row. -/
theorem c2_no_rollback_counterexample :
    (find_or_create_artist c2Env ("nm".toList) c2Sess).1 = none ∧
    (find_or_create_artist c2Env ("nm".toList) c2Sess).2.pending ≠
      (find_or_create_artist c2Env ("nm".toList) c2Sess).2.committed := by decide

/-- C2 amended: a persistence error in the album or track create/update path
is caught, rolled back and reported as `None`; in the artist path it is
caught and reported as `None`, but the session is left exactly as it stood
at the raise — no rollback happens. -/
theorem c2_error_handling_amended (env : Env) (name : Str) (ad : AlbumAgg)
    (td : TrackAgg) (s : Session) :
    (∀ s', create_album_from_aggregated_data env ad s = (none, s') →
      s'.pending = s'.committed) ∧
    (∀ s', create_track_from_aggregated_data env td s = (none, s') →
      s'.pending = s'.committed) ∧
    (∀ s', find_existing_artist_fuzzy s.pending name = none →
      artistProvidersBody env name s = .error s' →
      find_or_create_artist env name s = (none, s')) := by
  refine ⟨?_, ?_, ?_⟩
  · intro s' h
    unfold create_album_from_aggregated_data at h
    rcases hb : createAlbumBody env ad s with s0 | p
    · rw [hb] at h
      obtain ⟨-, rfl⟩ := Prod.mk.injEq .. ▸ h
      rfl
    · rw [hb] at h
      simp at h
  · intro s' h
    unfold create_track_from_aggregated_data at h
    rcases hb : createTrackBody env td s with s0 | p
    · rw [hb] at h
      obtain ⟨-, rfl⟩ := Prod.mk.injEq .. ▸ h
      rfl
    · rw [hb] at h
      simp at h
  · intro s' hfuzzy herr
    unfold find_or_create_artist
    rw [hfuzzy, herr]

def c2wEnv : Env := { commitFails := fun _ => true }

def c2wAgg : AlbumAgg :=
  { spotify_data := some { id := "sp".toList, name := "t".toList },
    title := "t".toList }

/-- C2 witness: a failing album-create commit ends with a rolled-back
session. -/
theorem c2_error_handling_witness :
    (create_album_from_aggregated_data c2wEnv c2wAgg c2Sess).2.pending =
      (create_album_from_aggregated_data c2wEnv c2wAgg c2Sess).2.committed :=
  (c2_error_handling_amended c2wEnv [] c2wAgg { title := [] } c2Sess).1
    (create_album_from_aggregated_data c2wEnv c2wAgg c2Sess).2 (by decide)

/-! ## C5 / C6: similarity on empty normalized forms, and symmetry -/

theorem normalize_nil (strict : Bool) : normalize [] strict = [] := rfl

theorem lowerStr_eq_nil {n : Str} (h : lowerStr n = []) : n = [] := by
  cases n with
  | nil => rfl
  | cons c cs => simp [lowerStr] at h

/-- Case-insensitively equal raw names normalize identically. -/
theorem normalize_congr_lower {n1 n2 : Str} (strict : Bool)
    (h : lowerStr n1 = lowerStr n2) : normalize n1 strict = normalize n2 strict := by
  by_cases h1 : n1 = []
  · subst h1
    have h2 : n2 = [] := lowerStr_eq_nil (by simpa [lowerStr] using h.symm)
    subst h2
    rfl
  · have h2 : n2 ≠ [] := by
      intro he
      subst he
      exact h1 (lowerStr_eq_nil (by simpa [lowerStr] using h))
    unfold normalize
    rw [if_neg h1, if_neg h2, h]

/-- When exactly the first normalized form is empty, the score is `0` and
`are_similar` rejects at every threshold. -/
theorem score_zero_left_empty {n1 n2 : Str} {strict : Bool}
    (h1 : normalize n1 strict = []) (h2 : normalize n2 strict ≠ []) :
    get_similarity_score n1 n2 strict = 0 ∧
      ∀ t : ℚ, are_similar n1 n2 t strict = false := by
  by_cases hr : n1 = [] ∨ n2 = []
  · constructor
    · simp [get_similarity_score, hr]
    · intro t
      simp [are_similar, hr]
  · have hlow : ¬ lowerStr n1 = lowerStr n2 := fun hl =>
      h2 (by rw [← normalize_congr_lower strict hl, h1])
    have hne : ¬ normalize n1 strict = normalize n2 strict := fun hN =>
      h2 (by rw [← hN, h1])
    constructor
    · simp [get_similarity_score, hr, hlow, hne, h1, h2, Ne.symm h2]
    · intro t
      simp [are_similar, hr, hlow, hne, h1, h2, Ne.symm h2]

/-- When exactly the second normalized form is empty, the score is `0` and
`are_similar` rejects at every threshold. -/
theorem score_zero_right_empty {n1 n2 : Str} {strict : Bool}
    (h1 : normalize n1 strict ≠ []) (h2 : normalize n2 strict = []) :
    get_similarity_score n1 n2 strict = 0 ∧
      ∀ t : ℚ, are_similar n1 n2 t strict = false := by
  by_cases hr : n1 = [] ∨ n2 = []
  · constructor
    · simp [get_similarity_score, hr]
    · intro t
      simp [are_similar, hr]
  · have hlow : ¬ lowerStr n1 = lowerStr n2 := fun hl =>
      h1 (by rw [normalize_congr_lower strict hl, h2])
    have hne : ¬ normalize n1 strict = normalize n2 strict := fun hN =>
      h1 (by rw [hN, h2])
    constructor
    · simp [get_similarity_score, hr, hlow, hne, h2, h1, Ne.symm h1]
    · intro t
      simp [are_similar, hr, hlow, hne, h2, h1, Ne.symm h1]

/-- C5 counterexample: both normalized forms are empty, the raw names differ,
and the score is `1`, not `0` (the normalized-equality check precedes the
emptiness check); `are_similar` accepts at a positive threshold. -/
theorem c5_empty_similarity_counterexample :
    normalize ("!!!".toList) false = [] ∧ normalize ("???".toList) false = [] ∧
    get_similarity_score ("!!!".toList) ("???".toList) false = 1 ∧
    ¬ get_similarity_score ("!!!".toList) ("???".toList) false = 0 ∧
    are_similar ("!!!".toList) ("???".toList) (mkRat 1 2) false = true := by decide

/-- C5 amended: the score is `0` (and `are_similar` false at any threshold)
when a raw input is empty or when exactly one of the two normalized forms
is empty; when both normalized forms are empty but the raw names are
non-empty, the normalized-equality branch answers `1` instead. -/
theorem c5_empty_similarity_amended (n1 n2 : Str) (strict : Bool)
    (h : n1 = [] ∨ n2 = [] ∨
         (normalize n1 strict = [] ∧ normalize n2 strict ≠ []) ∨
         (normalize n1 strict ≠ [] ∧ normalize n2 strict = [])) :
    get_similarity_score n1 n2 strict = 0 ∧
      ∀ t : ℚ, are_similar n1 n2 t strict = false := by
  rcases h with h | h | ⟨h1, h2⟩ | ⟨h1, h2⟩
  · constructor
    · simp [get_similarity_score, h]
    · intro t
      simp [are_similar, h]
  · constructor
    · simp [get_similarity_score, h]
    · intro t
      simp [are_similar, h]
  · exact score_zero_left_empty h1 h2
  · exact score_zero_right_empty h1 h2

/-- C5 witness. -/
theorem c5_empty_similarity_witness :
    get_similarity_score ("!!".toList) ("ab".toList) false = 0 ∧
    are_similar ("!!".toList) ("ab".toList) (mkRat 1 2) false = false :=
  ⟨(c5_empty_similarity_amended ("!!".toList) ("ab".toList) false
      (Or.inr (Or.inr (Or.inl ⟨by decide, by decide⟩)))).1,
   (c5_empty_similarity_amended ("!!".toList) ("ab".toList) false
      (Or.inr (Or.inr (Or.inl ⟨by decide, by decide⟩)))).2 (mkRat 1 2)⟩

/-- C6 counterexample: the difflib sequence ratio is order-dependent —
`similarity("ppmqq", "qqxppym") = 1/2` but `similarity("qqxppym", "ppmqq")
= 1/3`. -/
theorem c6_symmetry_counterexample :
    get_similarity_score ("ppmqq".toList) ("qqxppym".toList) false = mkRat 1 2 ∧
    get_similarity_score ("qqxppym".toList) ("ppmqq".toList) false = mkRat 1 3 ∧
    get_similarity_score ("ppmqq".toList) ("qqxppym".toList) false ≠
      get_similarity_score ("qqxppym".toList) ("ppmqq".toList) false := by decide

/-- C6 amended: the score is symmetric in every branch before the final
difflib sequence-ratio (empty raw input, case-insensitive raw equality,
normalized equality, empty normalized form); the sequence-ratio branch
itself is order-dependent. -/
theorem c6_symmetry_amended (n1 n2 : Str) (strict : Bool)
    (h : n1 = [] ∨ n2 = [] ∨ lowerStr n1 = lowerStr n2 ∨
         normalize n1 strict = normalize n2 strict ∨
         normalize n1 strict = [] ∨ normalize n2 strict = []) :
    get_similarity_score n1 n2 strict = get_similarity_score n2 n1 strict := by
  by_cases hr : n1 = [] ∨ n2 = []
  · have hr' : n2 = [] ∨ n1 = [] := hr.symm
    simp only [get_similarity_score]
    rw [if_pos hr, if_pos hr']
  · have hn1 : ¬ n1 = [] := fun he => hr (Or.inl he)
    have hn2 : ¬ n2 = [] := fun he => hr (Or.inr he)
    have hr' : ¬ (n2 = [] ∨ n1 = []) := fun hc => hr hc.symm
    by_cases hlow : lowerStr n1 = lowerStr n2
    · simp only [get_similarity_score]
      rw [if_neg hr, if_neg hr', if_pos hlow, if_pos hlow.symm]
    · have hlow' : ¬ lowerStr n2 = lowerStr n1 := fun he => hlow he.symm
      by_cases hN : normalize n1 strict = normalize n2 strict
      · simp only [get_similarity_score]
        rw [if_neg hr, if_neg hr', if_neg hlow, if_neg hlow', if_pos hN, if_pos hN.symm]
      · have hone : normalize n1 strict = [] ∨ normalize n2 strict = [] := by
          rcases h with h | h | h | h | h | h
          · exact absurd h hn1
          · exact absurd h hn2
          · exact absurd h hlow
          · exact absurd h hN
          · exact Or.inl h
          · exact Or.inr h
        rcases hone with h1 | h1
        · have h2 : normalize n2 strict ≠ [] := fun he => hN (by rw [h1, he])
          rw [(score_zero_left_empty h1 h2).1, (score_zero_right_empty h2 h1).1]
        · have h2 : normalize n1 strict ≠ [] := fun he => hN (by rw [h1, he])
          rw [(score_zero_right_empty h2 h1).1, (score_zero_left_empty h1 h2).1]

/-- C6 witness: case-insensitively equal names score symmetrically. -/
theorem c6_symmetry_witness :
    get_similarity_score ("Abba".toList) ("ABBA".toList) false =
      get_similarity_score ("ABBA".toList) ("Abba".toList) false :=
  c6_symmetry_amended ("Abba".toList) ("ABBA".toList) false
    (Or.inr (Or.inr (Or.inl (by decide))))

/-! ## C4: normalization idempotence

The key structural facts: every output of `normalize` consists of
lower-stable ASCII word characters and single interior spaces with trimmed
ends (`CleanStr`), and on such strings every stage of a second `normalize`
pass is the identity except the leading-article strip. -/

def goodChar (c : Char) : Prop :=
  (isWordC c = true ∨ c = ' ') ∧ c.toNat < 128 ∧ lowerC c = c

def NoWsPair (s : Str) : Prop :=
  List.Chain' (fun a b => ¬(isWsC a = true ∧ isWsC b = true)) s

structure CleanStr (s : Str) : Prop where
  chars : ∀ c ∈ s, goodChar c
  pairs : NoWsPair s
  headOk : ∀ c, s.head? = some c → isWsC c = false
  lastOk : ∀ c, s.getLast? = some c → isWsC c = false

theorem charOfNatLowerRange : ∀ n : Nat, n < 123 → 97 ≤ n → (Char.ofNat n).toNat = n := by
  decide

theorem lowerC_of_upper {c : Char} (h : 65 ≤ c.toNat ∧ c.toNat ≤ 90) :
    lowerC c = Char.ofNat (c.toNat + 32) := by
  unfold lowerC
  rw [if_pos h]

theorem lowerC_of_not_upper {c : Char} (h : ¬(65 ≤ c.toNat ∧ c.toNat ≤ 90)) :
    lowerC c = c := by
  unfold lowerC
  rw [if_neg h]

theorem lowerC_idem (c : Char) : lowerC (lowerC c) = lowerC c := by
  by_cases h : 65 ≤ c.toNat ∧ c.toNat ≤ 90
  · rw [lowerC_of_upper h]
    apply lowerC_of_not_upper
    rw [charOfNatLowerRange (c.toNat + 32) (by omega) (by omega)]
    omega
  · rw [lowerC_of_not_upper h, lowerC_of_not_upper h]

theorem foldTable_good : ∀ p ∈ foldTable, p.2.toNat < 128 ∧ lowerC p.2 = p.2 := by
  decide

theorem asciiFoldChar_good {c : Char} (hc : lowerC c = c) :
    ∀ d ∈ asciiFoldChar c, d.toNat < 128 ∧ lowerC d = d := by
  intro d hd
  unfold asciiFoldChar at hd
  by_cases h : c.toNat < 128
  · rw [if_pos h] at hd
    simp at hd
    subst hd
    exact ⟨h, hc⟩
  · rw [if_neg h] at hd
    cases hfind : foldTable.find? (fun p => p.1 == c) with
    | none =>
      rw [hfind] at hd
      simp at hd
    | some p =>
      rw [hfind] at hd
      simp at hd
      subst hd
      exact foldTable_good p (List.mem_of_find?_eq_some hfind)

theorem mem_trim {s : Str} : trim s ⊆ s := by
  intro c hc
  unfold trim trimLeft at hc
  rw [List.mem_reverse] at hc
  have h1 := (List.dropWhile_suffix _).subset hc
  rw [List.mem_reverse] at h1
  exact (List.dropWhile_suffix _).subset h1

theorem stripOneSuffix_subset (s suf : Str) : stripOneSuffix s suf ⊆ s := by
  unfold stripOneSuffix
  split
  · intro c hc
    exact List.take_subset _ _ (mem_trim hc)
  · exact fun c hc => hc

theorem foldl_stripOneSuffix_subset (L : List Str) :
    ∀ s : Str, L.foldl stripOneSuffix s ⊆ s := by
  induction L with
  | nil => exact fun s c hc => hc
  | cons suf L ih =>
    intro s c hc
    exact stripOneSuffix_subset s suf (ih (stripOneSuffix s suf) hc)

theorem stripSuffixesAll_subset (s : Str) : stripSuffixesAll s ⊆ s :=
  foldl_stripOneSuffix_subset stripSuffixList s

theorem dropThroughClose_suffix {cl : Char} :
    ∀ {s r : Str}, dropThroughClose cl s = some r → r <:+ s := by
  intro s
  induction s with
  | nil =>
    intro r h
    simp [dropThroughClose] at h
  | cons c cs ih =>
    intro r h
    unfold dropThroughClose at h
    by_cases hc : c = cl
    · rw [if_pos hc] at h
      cases h
      exact List.suffix_cons c cs
    · rw [if_neg hc] at h
      exact (ih h).trans (List.suffix_cons c cs)

theorem removeDelimsFuel_subset (o cl : Char) :
    ∀ (fuel : Nat) (s : Str), removeDelimsFuel o cl fuel s ⊆ s := by
  intro fuel
  induction fuel with
  | zero => exact fun s c hc => hc
  | succ n ih =>
    intro s c hc
    cases s with
    | nil => simp [removeDelimsFuel] at hc
    | cons x rest =>
      unfold removeDelimsFuel at hc
      by_cases hx : x = o
      · rw [if_pos hx] at hc
        cases hdrop : dropThroughClose cl rest with
        | some rest' =>
          rw [hdrop] at hc
          exact List.mem_cons_of_mem x
            ((dropThroughClose_suffix hdrop).subset (ih rest' hc))
        | none =>
          rw [hdrop] at hc
          exact hc
      · rw [if_neg hx] at hc
        rcases List.mem_cons.mp hc with h | h
        · exact List.mem_cons.mpr (Or.inl h)
        · exact List.mem_cons_of_mem x (ih rest h)

theorem removeDelims_subset (o cl : Char) (s : Str) : removeDelims o cl s ⊆ s :=
  removeDelimsFuel_subset o cl s.length s

theorem stripArticle_suffix (s : Str) : stripArticle s <:+ s := by
  unfold stripArticle
  split
  · exact List.drop_suffix _ _
  · split
    · exact List.drop_suffix _ _
    · split
      · exact List.drop_suffix _ _
      · exact List.suffix_refl s

theorem stripArticle_subset (s : Str) : stripArticle s ⊆ s :=
  (stripArticle_suffix s).subset

theorem squash_chars {s : Str} : ∀ {x : Char}, x ∈ squash s →
    x = ' ' ∨ (x ∈ s ∧ isWsC x = false) := by
  induction s with
  | nil =>
    intro x hx
    simp [squash] at hx
  | cons c rest ih =>
    intro x hx
    unfold squash at hx
    by_cases hc : isWsC c
    · rw [if_pos hc] at hx
      cases hq : squash rest with
      | nil =>
        rw [hq] at hx
        simp at hx
        exact Or.inl hx
      | cons d ds =>
        rw [hq] at hx
        have hx2 : x ∈ (if isWsC d = true then d :: ds else ' ' :: d :: ds) := hx
        by_cases hd : isWsC d
        · rw [if_pos hd] at hx2
          have hx' : x ∈ squash rest := by
            rw [hq]
            exact hx2
          rcases ih hx' with h | ⟨h1, h2⟩
          · exact Or.inl h
          · exact Or.inr ⟨List.mem_cons_of_mem c h1, h2⟩
        · rw [if_neg hd] at hx2
          rcases List.mem_cons.mp hx2 with h | h
          · exact Or.inl h
          · have hx' : x ∈ squash rest := by
              rw [hq]
              exact h
            rcases ih hx' with h' | ⟨h1, h2⟩
            · exact Or.inl h'
            · exact Or.inr ⟨List.mem_cons_of_mem c h1, h2⟩
    · rw [if_neg hc] at hx
      rcases List.mem_cons.mp hx with h | h
      · subst h
        exact Or.inr ⟨List.mem_cons_self _ _, by simpa using hc⟩
      · rcases ih h with h' | ⟨h1, h2⟩
        · exact Or.inl h'
        · exact Or.inr ⟨List.mem_cons_of_mem c h1, h2⟩

theorem squash_nowspair : ∀ s : Str, NoWsPair (squash s) := by
  intro s
  induction s with
  | nil => exact List.chain'_nil
  | cons c rest ih =>
    unfold squash
    by_cases hc : isWsC c
    · rw [if_pos hc]
      cases hq : squash rest with
      | nil => simp [NoWsPair]
      | cons d ds =>
        have ih' : NoWsPair (d :: ds) := by
          rw [← hq]
          exact ih
        show NoWsPair (if isWsC d = true then d :: ds else ' ' :: d :: ds)
        by_cases hd : isWsC d
        · rw [if_pos hd]
          exact ih'
        · rw [if_neg hd]
          exact List.chain'_cons'.mpr
            ⟨fun y hy => by
              simp at hy
              subst hy
              exact fun hcontra => absurd hcontra.2 (by simp [hd]),
             ih'⟩
    · rw [if_neg hc]
      exact List.chain'_cons'.mpr
        ⟨fun y _ hcontra => absurd hcontra.1 (by simpa using hc), ih⟩

theorem nowspair_suffix {s t : Str} (h : NoWsPair s) (hst : t <:+ s) : NoWsPair t :=
  List.Chain'.suffix h hst

theorem nowspair_reverse {s : Str} (h : NoWsPair s) : NoWsPair s.reverse := by
  apply List.chain'_reverse.mpr
  exact h.imp (fun a b hab => fun hp => hab ⟨hp.2, hp.1⟩)

theorem nowspair_trim {s : Str} (h : NoWsPair s) : NoWsPair (trim s) := by
  unfold trim trimLeft
  apply nowspair_reverse
  apply nowspair_suffix _ (List.dropWhile_suffix _)
  apply nowspair_reverse
  exact nowspair_suffix h (List.dropWhile_suffix _)

theorem dropWhile_head_false (p : Char → Bool) :
    ∀ (l : Str) (c : Char), (l.dropWhile p).head? = some c → p c = false := by
  intro l
  induction l with
  | nil =>
    intro c h
    simp [List.dropWhile] at h
  | cons x xs ih =>
    intro c h
    rw [List.dropWhile_cons] at h
    by_cases hx : p x
    · rw [if_pos hx] at h
      exact ih c h
    · rw [if_neg hx] at h
      obtain rfl : x = c := by simpa using h
      simpa using hx

theorem exists_getLast? : ∀ {l : Str}, l ≠ [] → ∃ c : Char, l.getLast? = some c := by
  intro l
  induction l with
  | nil => exact fun h => absurd rfl h
  | cons c cs ih =>
    intro _
    cases cs with
    | nil => exact ⟨c, rfl⟩
    | cons d ds =>
      obtain ⟨e, he⟩ := ih (by simp)
      exact ⟨e, by rw [List.getLast?_cons_cons, he]⟩

theorem suffix_getLast? {l₁ l₂ : Str} (h : l₁ <:+ l₂) (hne : l₁ ≠ []) :
    l₂.getLast? = l₁.getLast? := by
  obtain ⟨t, rfl⟩ := h
  rw [List.getLast?_append]
  obtain ⟨c, hc⟩ := exists_getLast? hne
  rw [hc]
  rfl

theorem trim_last_ws (s : Str) : ∀ c, (trim s).getLast? = some c → isWsC c = false := by
  intro c h
  unfold trim trimLeft at h
  rw [List.getLast?_reverse] at h
  exact dropWhile_head_false _ _ c h

theorem trim_head_ws (s : Str) : ∀ c, (trim s).head? = some c → isWsC c = false := by
  intro c h
  unfold trim trimLeft at h
  rw [List.head?_reverse] at h
  have hne : List.dropWhile (fun d => isWsC d) ((List.dropWhile (fun d => isWsC d) s).reverse) ≠ [] := by
    intro he
    rw [he] at h
    simp at h
  rw [← suffix_getLast? (List.dropWhile_suffix _) hne, List.getLast?_reverse] at h
  exact dropWhile_head_false _ _ c h

theorem clean_nil : CleanStr [] where
  chars := by
    intro c hc
    simp at hc
  pairs := List.chain'_nil
  headOk := by
    intro c h
    simp at h
  lastOk := by
    intro c h
    simp at h

theorem clean_trim_squash {s : Str}
    (hs : ∀ c ∈ s, (isWordC c = true ∨ isWsC c = true) ∧ c.toNat < 128 ∧ lowerC c = c) :
    CleanStr (trim (squash s)) where
  chars := by
    intro c hc
    rcases squash_chars (mem_trim hc) with h | ⟨h1, h2⟩
    · subst h
      exact ⟨Or.inr rfl, by decide, by decide⟩
    · obtain ⟨hw, ha, hl⟩ := hs c h1
      refine ⟨?_, ha, hl⟩
      rcases hw with hw | hw
      · exact Or.inl hw
      · exact absurd hw (by simp [h2])
  pairs := nowspair_trim (squash_nowspair s)
  headOk := trim_head_ws _
  lastOk := trim_last_ws _

theorem asciiFold_pipeline_good (n : Str) :
    ∀ c ∈ asciiFoldStr (trim (lowerStr n)), c.toNat < 128 ∧ lowerC c = c := by
  intro c hc
  unfold asciiFoldStr at hc
  rw [List.mem_flatten] at hc
  obtain ⟨l, hl, hcl⟩ := hc
  rw [List.mem_map] at hl
  obtain ⟨a, ha, rfl⟩ := hl
  have ha' : a ∈ lowerStr n := mem_trim ha
  rw [lowerStr, List.mem_map] at ha'
  obtain ⟨b, _, rfl⟩ := ha'
  exact asciiFoldChar_good (lowerC_idem b) c hcl

theorem normalize_eq_of_ne_nil {n : Str} (strict : Bool) (hn : n ≠ []) :
    normalize n strict =
      trim (squash (List.filter (fun c => isWordC c || isWsC c)
        (stripArticle
          (if strict then
            removeDelims '[' ']' (removeDelims '(' ')'
              (stripSuffixesAll (asciiFoldStr (trim (lowerStr n)))))
           else stripSuffixesAll (asciiFoldStr (trim (lowerStr n))))))) := by
  unfold normalize
  rw [if_neg hn]

/-- Lemma A: every `normalize` output is clean. -/
theorem clean_normalize (n : Str) (strict : Bool) : CleanStr (normalize n strict) := by
  by_cases hn : n = []
  · have : normalize n strict = [] := by
      rw [hn]
      rfl
    rw [this]
    exact clean_nil
  · rw [normalize_eq_of_ne_nil strict hn]
    apply clean_trim_squash
    intro c hc
    rw [List.mem_filter] at hc
    obtain ⟨hc5, hcp⟩ := hc
    have h4 := stripArticle_subset _ hc5
    have h3 : c ∈ stripSuffixesAll (asciiFoldStr (trim (lowerStr n))) := by
      by_cases hstrict : strict = true
      · rw [if_pos hstrict] at h4
        exact removeDelims_subset _ _ _ (removeDelims_subset _ _ _ h4)
      · rw [if_neg hstrict] at h4
        exact h4
    have h2 := stripSuffixesAll_subset _ h3
    exact ⟨by simpa using hcp, asciiFold_pipeline_good n c h2⟩

theorem ws_eq_space_of_good {c : Char} (hg : isWordC c = true ∨ c = ' ')
    (hw : isWsC c = true) : c = ' ' := by
  rcases hg with hg | hg
  · exfalso
    have hcases := hw
    simp only [isWsC, Bool.or_eq_true, beq_iff_eq] at hcases
    rcases hcases with ((((rfl | rfl) | rfl) | rfl) | rfl) | rfl <;>
      exact absurd hg (by decide)
  · exact hg

theorem lowerStr_id {s : Str} (h : ∀ c ∈ s, lowerC c = c) : lowerStr s = s :=
  (List.map_congr_left h).trans (List.map_id s)

theorem trimLeft_eq_self {s : Str} (h : ∀ c, s.head? = some c → isWsC c = false) :
    trimLeft s = s := by
  unfold trimLeft
  cases s with
  | nil => rfl
  | cons c cs =>
    rw [List.dropWhile_cons, if_neg (by simp [h c rfl])]

theorem trim_eq_self {s : Str} (hh : ∀ c, s.head? = some c → isWsC c = false)
    (hl : ∀ c, s.getLast? = some c → isWsC c = false) : trim s = s := by
  unfold trim
  rw [trimLeft_eq_self hh,
    trimLeft_eq_self (fun c hc => hl c (by rwa [List.head?_reverse] at hc)),
    List.reverse_reverse]

theorem asciiFoldChar_ascii {c : Char} (h : c.toNat < 128) : asciiFoldChar c = [c] := by
  unfold asciiFoldChar
  rw [if_pos h]

theorem asciiFoldStr_id {s : Str} (h : ∀ c ∈ s, c.toNat < 128) : asciiFoldStr s = s := by
  induction s with
  | nil => rfl
  | cons c cs ih =>
    unfold asciiFoldStr at ih ⊢
    rw [List.map_cons, List.flatten_cons,
      asciiFoldChar_ascii (h c (List.mem_cons_self c cs)),
      ih (fun d hd => h d (List.mem_cons_of_mem c hd))]
    rfl

theorem stripSuffixList_bad : ∀ suf ∈ stripSuffixList,
    suf.any (fun c => !(isWordC c || c == ' ')) = true := by decide

theorem stripOneSuffix_id {y suf : Str}
    (hy : ∀ c ∈ y, isWordC c = true ∨ c = ' ')
    (hbad : suf.any (fun c => !(isWordC c || c == ' ')) = true) :
    stripOneSuffix y suf = y := by
  unfold stripOneSuffix
  have hno : ¬ (suf.isSuffixOf y = true) := by
    intro hsfx
    have hsub : suf ⊆ y := (List.isSuffixOf_iff_suffix.mp hsfx).subset
    rw [List.any_eq_true] at hbad
    obtain ⟨c, hcs, hc⟩ := hbad
    rcases hy c (hsub hcs) with h | h
    · simp [h] at hc
    · subst h
      exact absurd hc (by decide)
  rw [if_neg hno]

theorem foldl_stripOneSuffix_id {y : Str} (hy : ∀ c ∈ y, isWordC c = true ∨ c = ' ') :
    ∀ L : List Str, (∀ suf ∈ L, suf.any (fun c => !(isWordC c || c == ' ')) = true) →
      L.foldl stripOneSuffix y = y := by
  intro L
  induction L with
  | nil => exact fun _ => rfl
  | cons suf L ih =>
    intro hL
    rw [List.foldl_cons, stripOneSuffix_id hy (hL suf (List.mem_cons_self suf L))]
    exact ih (fun s hs => hL s (List.mem_cons_of_mem suf hs))

theorem stripSuffixesAll_id {y : Str} (hy : ∀ c ∈ y, isWordC c = true ∨ c = ' ') :
    stripSuffixesAll y = y :=
  foldl_stripOneSuffix_id hy stripSuffixList stripSuffixList_bad

theorem removeDelimsFuel_id (o cl : Char) :
    ∀ (fuel : Nat) (s : Str), (∀ c ∈ s, c ≠ o) → removeDelimsFuel o cl fuel s = s := by
  intro fuel
  induction fuel with
  | zero => exact fun s _ => rfl
  | succ n ih =>
    intro s h
    cases s with
    | nil => rfl
    | cons x rest =>
      unfold removeDelimsFuel
      rw [if_neg (h x (List.mem_cons_self x rest)),
        ih rest (fun c hc => h c (List.mem_cons_of_mem x hc))]

theorem removeDelims_id (o cl : Char) {s : Str} (h : ∀ c ∈ s, c ≠ o) :
    removeDelims o cl s = s := removeDelimsFuel_id o cl s.length s h

theorem squash_id : ∀ {s : Str}, (∀ c ∈ s, isWordC c = true ∨ c = ' ') → NoWsPair s →
    squash s = s := by
  intro s
  induction s with
  | nil => exact fun _ _ => rfl
  | cons c rest ih =>
    intro hchars hpair
    have ihr : squash rest = rest :=
      ih (fun d hd => hchars d (List.mem_cons_of_mem c hd))
        (List.chain'_cons'.mp hpair).2
    unfold squash
    by_cases hc : isWsC c
    · rw [if_pos hc, ihr]
      have hcsp : c = ' ' := ws_eq_space_of_good (hchars c (List.mem_cons_self c rest)) hc
      cases rest with
      | nil => rw [hcsp]
      | cons d ds =>
        have hd : isWsC d = false := by
          have hr := (List.chain'_cons'.mp hpair).1 d rfl
          by_contra hdd
          simp at hdd
          exact hr ⟨hc, hdd⟩
        show (if isWsC d = true then d :: ds else ' ' :: d :: ds) = c :: d :: ds
        rw [if_neg (by simp [hd]), hcsp]
    · rw [if_neg hc, ihr]

theorem stripArticle_cases (y : Str) :
    stripArticle y = y ∨
    (∃ t, y = "the ".toList ++ t ∧ stripArticle y = t) ∨
    (∃ t, y = "a ".toList ++ t ∧ stripArticle y = t) ∨
    (∃ t, y = "an ".toList ++ t ∧ stripArticle y = t) := by
  unfold stripArticle
  by_cases h1 : ("the ".toList).isPrefixOf y = true
  · rw [if_pos h1]
    obtain ⟨t, ht⟩ := List.isPrefixOf_iff_prefix.mp h1
    refine Or.inr (Or.inl ⟨t, ht.symm, ?_⟩)
    rw [← ht]
    show List.drop (("the ".toList).length) ("the ".toList ++ t) = t
    exact List.drop_left _ _
  · rw [if_neg h1]
    by_cases h2 : ("a ".toList).isPrefixOf y = true
    · rw [if_pos h2]
      obtain ⟨t, ht⟩ := List.isPrefixOf_iff_prefix.mp h2
      refine Or.inr (Or.inr (Or.inl ⟨t, ht.symm, ?_⟩))
      rw [← ht]
      show List.drop (("a ".toList).length) ("a ".toList ++ t) = t
      exact List.drop_left _ _
    · rw [if_neg h2]
      by_cases h3 : ("an ".toList).isPrefixOf y = true
      · rw [if_pos h3]
        obtain ⟨t, ht⟩ := List.isPrefixOf_iff_prefix.mp h3
        refine Or.inr (Or.inr (Or.inr ⟨t, ht.symm, ?_⟩))
        rw [← ht]
        show List.drop (("an ".toList).length) ("an ".toList ++ t) = t
        exact List.drop_left _ _
      · rw [if_neg h3]
        exact Or.inl rfl

theorem pair_after_space {y t : Str} (pre : Str) (hy : NoWsPair y)
    (hyt : y = pre ++ (' ' :: t)) : ∀ c, t.head? = some c → isWsC c = false := by
  intro c hc
  cases t with
  | nil => simp at hc
  | cons d ds =>
    obtain rfl : d = c := by simpa using hc
    have hsuf : (' ' :: d :: ds) <:+ y := ⟨pre, hyt.symm⟩
    have hch := List.Chain'.suffix hy hsuf
    have hr := (List.chain'_cons'.mp hch).1 d rfl
    by_contra hdd
    simp at hdd
    exact hr ⟨by decide, hdd⟩

theorem clean_stripArticle_head {y : Str} (hy : CleanStr y) :
    ∀ c, (stripArticle y).head? = some c → isWsC c = false := by
  intro c hc
  rcases stripArticle_cases y with h | ⟨t, hyt, hz⟩ | ⟨t, hyt, hz⟩ | ⟨t, hyt, hz⟩
  · rw [h] at hc
    exact hy.headOk c hc
  · rw [hz] at hc
    exact pair_after_space ['t', 'h', 'e'] hy.pairs (by simpa using hyt) c hc
  · rw [hz] at hc
    exact pair_after_space ['a'] hy.pairs (by simpa using hyt) c hc
  · rw [hz] at hc
    exact pair_after_space ['a', 'n'] hy.pairs (by simpa using hyt) c hc

theorem clean_stripArticle_last {y : Str} (hy : CleanStr y) :
    ∀ c, (stripArticle y).getLast? = some c → isWsC c = false := by
  intro c hc
  have hne : stripArticle y ≠ [] := by
    intro he
    rw [he] at hc
    simp at hc
  have heq := suffix_getLast? (stripArticle_suffix y) hne
  exact hy.lastOk c (heq.trans hc)

/-- Lemma B: on a clean string, a further `normalize` pass only strips a
leading article. -/
theorem normalize_clean_eq_stripArticle {y : Str} (hy : CleanStr y) (strict : Bool) :
    normalize y strict = stripArticle y := by
  by_cases hn : y = []
  · subst hn
    rfl
  · rw [normalize_eq_of_ne_nil strict hn]
    have hws : ∀ c ∈ y, isWordC c = true ∨ c = ' ' := fun c hc => (hy.chars c hc).1
    have hlower : lowerStr y = y := lowerStr_id (fun c hc => (hy.chars c hc).2.2)
    have htrim : trim y = y := trim_eq_self hy.headOk hy.lastOk
    have hascii : asciiFoldStr y = y :=
      asciiFoldStr_id (fun c hc => (hy.chars c hc).2.1)
    have hsfx : stripSuffixesAll y = y := stripSuffixesAll_id hws
    rw [hlower, htrim, hascii, hsfx]
    have hnodem : ∀ o : Char, isWordC o = false → o ≠ ' ' → ∀ c ∈ y, c ≠ o := by
      intro o ho1 ho2 c hc he
      subst he
      rcases hws c hc with h | h
      · rw [h] at ho1
        cases ho1
      · exact ho2 h
    have hstrict :
        (if strict then removeDelims '[' ']' (removeDelims '(' ')' y) else y) = y := by
      cases strict with
      | false => rfl
      | true =>
        show removeDelims '[' ']' (removeDelims '(' ')' y) = y
        rw [removeDelims_id _ _ (hnodem '(' (by decide) (by decide)),
          removeDelims_id _ _ (hnodem '[' (by decide) (by decide))]
    rw [hstrict]
    have hzchars : ∀ c ∈ stripArticle y, isWordC c = true ∨ c = ' ' :=
      fun c hc => hws c (stripArticle_subset y hc)
    have hfilter : (stripArticle y).filter (fun c => isWordC c || isWsC c) = stripArticle y := by
      rw [List.filter_eq_self]
      intro c hc
      rcases hzchars c hc with h | h
      · simp [h]
      · subst h
        decide
    have hzpair : NoWsPair (stripArticle y) :=
      nowspair_suffix hy.pairs (stripArticle_suffix y)
    rw [hfilter, squash_id hzchars hzpair,
      trim_eq_self (clean_stripArticle_head hy) (clean_stripArticle_last hy)]

/-- C4 counterexample: `normalize` is not idempotent — a second pass strips
a further leading article exposed by the first. -/
theorem c4_idempotence_counterexample :
    normalize (normalize ("the the beatles".toList) false) false ≠
      normalize ("the the beatles".toList) false ∧
    normalize ("the the beatles".toList) false = "the beatles".toList ∧
    normalize (normalize ("the the beatles".toList) false) false = "beatles".toList := by
  decide

/-- C4 amended: a second application of `normalize` differs from the first
exactly by one more leading-article strip —
`normalize (normalize n) = stripArticle (normalize n)`; in particular
`normalize` is idempotent on precisely the inputs whose normalized form
does not begin with "the ", "a " or "an ". -/
theorem c4_idempotence_amended (n : Str) (strict : Bool) :
    normalize (normalize n strict) strict = stripArticle (normalize n strict) :=
  normalize_clean_eq_stripArticle (clean_normalize n strict) strict

end Mixview
